import Mathlib

/-!
Shallow embedding of the mdz_ansi_alg library (src/mdz_ansi_alg.h, src/mdz_error.h).
The repository ships only the header files: every operation is declared in
mdz_ansi_alg.h with a full contract (parameters, error kinds in check order,
success behaviour), while the C implementation file is absent.  The operations
below are therefore modelled from the specification and the header contracts.

Modelling conventions:
- size_t values are Nat; SIZE_MAX is the size_t sentinel 2^64 - 1.
- a byte buffer is a total function Nat -> Byte over offsets (caller memory);
  a nullable pointer is an Option.
- the one-time license gate is passed as an explicit boolean argument
  (spec section 9: the core takes an authorized flag as explicit input).
- the insert overlap test is a pointer-range fact independent of byte content
  (spec section 4.1), so it is passed as an explicit boolean argument.
- mutating operations return (error, data bytes, size holder); the error
  branches return the input data and size unchanged, as the spec requires
  validation to happen before any mutation.
-/

abbrev Byte := Nat

/-- Modelled from the spec: the size_t sentinel value SIZE_MAX (64-bit). -/
def SIZE_MAX : Nat := 2 ^ 64 - 1

/-- Error codes, from src/mdz_error.h. -/
inductive mdz_error where
  | MDZ_ERROR_NONE
  | MDZ_ERROR_LICENSE
  | MDZ_ERROR_DATA
  | MDZ_ERROR_SIZE
  | MDZ_ERROR_CAPACITY
  | MDZ_ERROR_ZERO_SIZE
  | MDZ_ERROR_BIGSIZE
  | MDZ_ERROR_ZERO_COUNT
  | MDZ_ERROR_BIGCOUNT
  | MDZ_ERROR_BIGLEFT
  | MDZ_ERROR_BIGRIGHT
  | MDZ_ERROR_ITEMS
  | MDZ_ERROR_TERMINATOR
  | MDZ_ERROR_OVERLAP
  deriving DecidableEq, Repr

/-- Modelled from the spec: left-to-right bounded scan.  Returns the first
index i with l <= i < l + fuel satisfying p, scanning upward from l. -/
def scanFirst (p : Nat → Bool) : Nat → Nat → Option Nat
  | _, 0 => none
  | l, fuel + 1 => if p l then some l else scanFirst p (l + 1) fuel

/-- Modelled from the spec: right-to-left bounded scan.  Returns the first
index found scanning downward from r, trying fuel positions. -/
def scanLast (p : Nat → Bool) : Nat → Nat → Option Nat
  | _, 0 => none
  | r, fuel + 1 => if p r then some r else scanLast p (r - 1) fuel

/-- Modelled from the spec: exact pattern comparison at a trial position
(spec section 4.3, exact match of nCount pattern bytes). -/
def matchAt (dd ii : Nat → Byte) (nCount pos : Nat) : Bool :=
  (List.range nCount).all fun j => dd (pos + j) == ii j

/-- Modelled from the spec: class membership of a byte in the pattern byte-set
(spec sections 4.2 and 4.4, pattern treated as an unordered set). -/
def inSet (ii : Nat → Byte) (nCount b : Nat) : Bool :=
  (List.range nCount).any fun j => ii j == b

/-- Byte function backed by a concrete list (offsets past the list read 0). -/
def bytesOf (l : List Byte) : Nat → Byte := fun i => l.getD i 0

/-- First n bytes of the data component of a mutating operation's result. -/
def outBytes (r : mdz_error × Option (Nat → Byte) × Option Nat) (n : Nat) : List Byte :=
  match r.2.1 with
  | some dd => (List.range n).map dd
  | none => []

/-- Modelled from the spec: mdz_ansi_alg_findSingle (header contract at
src/mdz_ansi_alg.h:84-101; implementation not under src/).  Checks follow the
documented error order, then the window [nLeftPos, nRightPos] is scanned
left-to-right for the first byte equal to cItem (spec section 4.2). -/
def mdz_ansi_alg_findSingle (bAuth : Bool) (pcData : Option (Nat → Byte))
    (nLeftPos nRightPos : Nat) (cItem : Byte) : Nat × mdz_error :=
  if bAuth = false then (SIZE_MAX, .MDZ_ERROR_LICENSE) else
  match pcData with
  | none => (SIZE_MAX, .MDZ_ERROR_DATA)
  | some dd =>
    if nRightPos = SIZE_MAX then (SIZE_MAX, .MDZ_ERROR_BIGRIGHT)
    else if nRightPos < nLeftPos then (SIZE_MAX, .MDZ_ERROR_BIGLEFT)
    else
      match scanFirst (fun i => dd i == cItem) nLeftPos (nRightPos + 1 - nLeftPos) with
      | some m => (m, .MDZ_ERROR_NONE)
      | none => (SIZE_MAX, .MDZ_ERROR_NONE)

/-- Modelled from the spec: mdz_ansi_alg_rfindSingle (header contract at
src/mdz_ansi_alg.h:126-143; implementation not under src/).  Scans the window
right-to-left for the last byte equal to cItem. -/
def mdz_ansi_alg_rfindSingle (bAuth : Bool) (pcData : Option (Nat → Byte))
    (nLeftPos nRightPos : Nat) (cItem : Byte) : Nat × mdz_error :=
  if bAuth = false then (SIZE_MAX, .MDZ_ERROR_LICENSE) else
  match pcData with
  | none => (SIZE_MAX, .MDZ_ERROR_DATA)
  | some dd =>
    if nRightPos = SIZE_MAX then (SIZE_MAX, .MDZ_ERROR_BIGRIGHT)
    else if nRightPos < nLeftPos then (SIZE_MAX, .MDZ_ERROR_BIGLEFT)
    else
      match scanLast (fun i => dd i == cItem) nRightPos (nRightPos + 1 - nLeftPos) with
      | some m => (m, .MDZ_ERROR_NONE)
      | none => (SIZE_MAX, .MDZ_ERROR_NONE)

/-- Modelled from the spec: mdz_ansi_alg_find (header contract at
src/mdz_ansi_alg.h:103-124; implementation not under src/).  The Horspool
search engine of spec section 4.3 finds exact matches only and the first
left-aligned exact match wins, so the engine is modelled as the leftmost
exact occurrence among the trial positions nLeftPos .. nRightPos+1-nCount
of the closed window. -/
def mdz_ansi_alg_find (bAuth : Bool) (pcData : Option (Nat → Byte))
    (nLeftPos nRightPos : Nat) (pcItems : Option (Nat → Byte)) (nCount : Nat) :
    Nat × mdz_error :=
  if bAuth = false then (SIZE_MAX, .MDZ_ERROR_LICENSE) else
  match pcData with
  | none => (SIZE_MAX, .MDZ_ERROR_DATA)
  | some dd =>
    match pcItems with
    | none => (SIZE_MAX, .MDZ_ERROR_ITEMS)
    | some ii =>
      if nCount = 0 then (SIZE_MAX, .MDZ_ERROR_ZERO_COUNT)
      else if nRightPos = SIZE_MAX then (SIZE_MAX, .MDZ_ERROR_BIGRIGHT)
      else if nRightPos < nLeftPos then (SIZE_MAX, .MDZ_ERROR_BIGLEFT)
      else if nRightPos + 1 - nLeftPos < nCount then (SIZE_MAX, .MDZ_ERROR_BIGCOUNT)
      else
        match scanFirst (fun q => matchAt dd ii nCount q) nLeftPos
            (nRightPos + 1 - nLeftPos - (nCount - 1)) with
        | some m => (m, .MDZ_ERROR_NONE)
        | none => (SIZE_MAX, .MDZ_ERROR_NONE)

/-- Modelled from the spec: mdz_ansi_alg_rfind (header contract at
src/mdz_ansi_alg.h:145-166; implementation not under src/).  The backward
Horspool engine returns the last left-aligned exact match in the window,
modelled as the rightmost exact occurrence among the trial positions. -/
def mdz_ansi_alg_rfind (bAuth : Bool) (pcData : Option (Nat → Byte))
    (nLeftPos nRightPos : Nat) (pcItems : Option (Nat → Byte)) (nCount : Nat) :
    Nat × mdz_error :=
  if bAuth = false then (SIZE_MAX, .MDZ_ERROR_LICENSE) else
  match pcData with
  | none => (SIZE_MAX, .MDZ_ERROR_DATA)
  | some dd =>
    match pcItems with
    | none => (SIZE_MAX, .MDZ_ERROR_ITEMS)
    | some ii =>
      if nCount = 0 then (SIZE_MAX, .MDZ_ERROR_ZERO_COUNT)
      else if nRightPos = SIZE_MAX then (SIZE_MAX, .MDZ_ERROR_BIGRIGHT)
      else if nRightPos < nLeftPos then (SIZE_MAX, .MDZ_ERROR_BIGLEFT)
      else if nRightPos + 1 - nLeftPos < nCount then (SIZE_MAX, .MDZ_ERROR_BIGCOUNT)
      else
        match scanLast (fun q => matchAt dd ii nCount q) (nRightPos + 1 - nCount)
            (nRightPos + 1 - nLeftPos - (nCount - 1)) with
        | some m => (m, .MDZ_ERROR_NONE)
        | none => (SIZE_MAX, .MDZ_ERROR_NONE)

/-- Modelled from the spec: mdz_ansi_alg_firstOf (header contract at
src/mdz_ansi_alg.h:168-188; implementation not under src/).  First byte of the
window that is a member of the pattern byte-set. -/
def mdz_ansi_alg_firstOf (bAuth : Bool) (pcData : Option (Nat → Byte))
    (nLeftPos nRightPos : Nat) (pcItems : Option (Nat → Byte)) (nCount : Nat) :
    Nat × mdz_error :=
  if bAuth = false then (SIZE_MAX, .MDZ_ERROR_LICENSE) else
  match pcData with
  | none => (SIZE_MAX, .MDZ_ERROR_DATA)
  | some dd =>
    match pcItems with
    | none => (SIZE_MAX, .MDZ_ERROR_ITEMS)
    | some ii =>
      if nCount = 0 then (SIZE_MAX, .MDZ_ERROR_ZERO_COUNT)
      else if nRightPos = SIZE_MAX then (SIZE_MAX, .MDZ_ERROR_BIGRIGHT)
      else if nRightPos < nLeftPos then (SIZE_MAX, .MDZ_ERROR_BIGLEFT)
      else
        match scanFirst (fun i => inSet ii nCount (dd i)) nLeftPos
            (nRightPos + 1 - nLeftPos) with
        | some m => (m, .MDZ_ERROR_NONE)
        | none => (SIZE_MAX, .MDZ_ERROR_NONE)

/-- Modelled from the spec: mdz_ansi_alg_firstNotOf (header contract at
src/mdz_ansi_alg.h:190-210; implementation not under src/).  First byte of the
window that is not a member of the pattern byte-set. -/
def mdz_ansi_alg_firstNotOf (bAuth : Bool) (pcData : Option (Nat → Byte))
    (nLeftPos nRightPos : Nat) (pcItems : Option (Nat → Byte)) (nCount : Nat) :
    Nat × mdz_error :=
  if bAuth = false then (SIZE_MAX, .MDZ_ERROR_LICENSE) else
  match pcData with
  | none => (SIZE_MAX, .MDZ_ERROR_DATA)
  | some dd =>
    match pcItems with
    | none => (SIZE_MAX, .MDZ_ERROR_ITEMS)
    | some ii =>
      if nCount = 0 then (SIZE_MAX, .MDZ_ERROR_ZERO_COUNT)
      else if nRightPos = SIZE_MAX then (SIZE_MAX, .MDZ_ERROR_BIGRIGHT)
      else if nRightPos < nLeftPos then (SIZE_MAX, .MDZ_ERROR_BIGLEFT)
      else
        match scanFirst (fun i => !(inSet ii nCount (dd i))) nLeftPos
            (nRightPos + 1 - nLeftPos) with
        | some m => (m, .MDZ_ERROR_NONE)
        | none => (SIZE_MAX, .MDZ_ERROR_NONE)

/-- Modelled from the spec: mdz_ansi_alg_lastOf (header contract at
src/mdz_ansi_alg.h:212-232; implementation not under src/).  Last byte of the
window that is a member of the pattern byte-set. -/
def mdz_ansi_alg_lastOf (bAuth : Bool) (pcData : Option (Nat → Byte))
    (nLeftPos nRightPos : Nat) (pcItems : Option (Nat → Byte)) (nCount : Nat) :
    Nat × mdz_error :=
  if bAuth = false then (SIZE_MAX, .MDZ_ERROR_LICENSE) else
  match pcData with
  | none => (SIZE_MAX, .MDZ_ERROR_DATA)
  | some dd =>
    match pcItems with
    | none => (SIZE_MAX, .MDZ_ERROR_ITEMS)
    | some ii =>
      if nCount = 0 then (SIZE_MAX, .MDZ_ERROR_ZERO_COUNT)
      else if nRightPos = SIZE_MAX then (SIZE_MAX, .MDZ_ERROR_BIGRIGHT)
      else if nRightPos < nLeftPos then (SIZE_MAX, .MDZ_ERROR_BIGLEFT)
      else
        match scanLast (fun i => inSet ii nCount (dd i)) nRightPos
            (nRightPos + 1 - nLeftPos) with
        | some m => (m, .MDZ_ERROR_NONE)
        | none => (SIZE_MAX, .MDZ_ERROR_NONE)

/-- Modelled from the spec: mdz_ansi_alg_lastNotOf (header contract at
src/mdz_ansi_alg.h:234-254; implementation not under src/).  Last byte of the
window that is not a member of the pattern byte-set. -/
def mdz_ansi_alg_lastNotOf (bAuth : Bool) (pcData : Option (Nat → Byte))
    (nLeftPos nRightPos : Nat) (pcItems : Option (Nat → Byte)) (nCount : Nat) :
    Nat × mdz_error :=
  if bAuth = false then (SIZE_MAX, .MDZ_ERROR_LICENSE) else
  match pcData with
  | none => (SIZE_MAX, .MDZ_ERROR_DATA)
  | some dd =>
    match pcItems with
    | none => (SIZE_MAX, .MDZ_ERROR_ITEMS)
    | some ii =>
      if nCount = 0 then (SIZE_MAX, .MDZ_ERROR_ZERO_COUNT)
      else if nRightPos = SIZE_MAX then (SIZE_MAX, .MDZ_ERROR_BIGRIGHT)
      else if nRightPos < nLeftPos then (SIZE_MAX, .MDZ_ERROR_BIGLEFT)
      else
        match scanLast (fun i => !(inSet ii nCount (dd i))) nRightPos
            (nRightPos + 1 - nLeftPos) with
        | some m => (m, .MDZ_ERROR_NONE)
        | none => (SIZE_MAX, .MDZ_ERROR_NONE)

/-- Modelled from the spec: the byte image of a successful insertion
(spec section 4.4): bytes below nLeftPos are kept, the nCount pattern bytes
occupy the opened gap, the old tail [nLeftPos, nSize) is shifted right by
nCount, the terminator is written at nSize + nCount, bytes beyond stay. -/
def insertBytes (dd : Nat → Byte) (nSize nLeftPos : Nat) (ii : Nat → Byte)
    (nCount : Nat) : Nat → Byte :=
  fun i =>
    if i < nLeftPos then dd i
    else if i < nLeftPos + nCount then ii (i - nLeftPos)
    else if i < nSize + nCount then dd (i - nCount)
    else if i = nSize + nCount then 0
    else dd i

/-- Modelled from the spec: the byte image of a single-range removal
(spec section 4.4): the tail [nLeftPos + nCount, nSize) is shifted left over
the gap, the terminator is written at nSize - nCount, bytes beyond stay. -/
def removeBytes (dd : Nat → Byte) (nSize nLeftPos nCount : Nat) : Nat → Byte :=
  fun i =>
    if i < nLeftPos then dd i
    else if i < nSize - nCount then dd (i + nCount)
    else if i = nSize - nCount then 0
    else dd i

/-- Modelled from the spec: mdz_ansi_alg_insert (header contract at
src/mdz_ansi_alg.h:56-78; implementation not under src/).  Checks follow the
documented error order; on success the buffer image is insertBytes and the new
size nSize + nCount is stored.  bOverlap is the pointer-range overlap fact of
the header's MDZ_ERROR_OVERLAP check, independent of byte content. -/
def mdz_ansi_alg_insert (bAuth : Bool) (pcData : Option (Nat → Byte))
    (pnDataSize : Option Nat) (nDataCapacity nLeftPos : Nat)
    (pcItems : Option (Nat → Byte)) (nCount : Nat) (bOverlap : Bool) :
    mdz_error × Option (Nat → Byte) × Option Nat :=
  if bAuth = false then (.MDZ_ERROR_LICENSE, pcData, pnDataSize) else
  match pcData, pnDataSize with
  | none, _ => (.MDZ_ERROR_DATA, pcData, pnDataSize)
  | some dd, none => (.MDZ_ERROR_SIZE, some dd, none)
  | some dd, some nSize =>
    if nDataCapacity = 0 ∨ nDataCapacity = SIZE_MAX then
      (.MDZ_ERROR_CAPACITY, some dd, some nSize)
    else if dd nSize ≠ 0 then (.MDZ_ERROR_TERMINATOR, some dd, some nSize)
    else
      match pcItems with
      | none => (.MDZ_ERROR_ITEMS, some dd, some nSize)
      | some ii =>
        if nCount = 0 then (.MDZ_ERROR_ZERO_COUNT, some dd, some nSize)
        else if nSize < nLeftPos then (.MDZ_ERROR_BIGLEFT, some dd, some nSize)
        else if nDataCapacity < nSize + nCount then
          (.MDZ_ERROR_BIGCOUNT, some dd, some nSize)
        else if bOverlap = true then (.MDZ_ERROR_OVERLAP, some dd, some nSize)
        else (.MDZ_ERROR_NONE, some (insertBytes dd nSize nLeftPos ii nCount),
              some (nSize + nCount))

/-- Modelled from the spec: mdz_ansi_alg_removeFrom (header contract at
src/mdz_ansi_alg.h:260-277; implementation not under src/).  Checks follow the
documented error order; on success the buffer image is removeBytes and the new
size nSize - nCount is stored. -/
def mdz_ansi_alg_removeFrom (bAuth : Bool) (pcData : Option (Nat → Byte))
    (pnDataSize : Option Nat) (nLeftPos nCount : Nat) :
    mdz_error × Option (Nat → Byte) × Option Nat :=
  if bAuth = false then (.MDZ_ERROR_LICENSE, pcData, pnDataSize) else
  match pcData, pnDataSize with
  | none, _ => (.MDZ_ERROR_DATA, pcData, pnDataSize)
  | some dd, none => (.MDZ_ERROR_SIZE, some dd, none)
  | some dd, some nSize =>
    if nSize = 0 then (.MDZ_ERROR_ZERO_SIZE, some dd, some nSize)
    else if dd nSize ≠ 0 then (.MDZ_ERROR_TERMINATOR, some dd, some nSize)
    else if nCount = 0 then (.MDZ_ERROR_ZERO_COUNT, some dd, some nSize)
    else if nSize ≤ nLeftPos then (.MDZ_ERROR_BIGLEFT, some dd, some nSize)
    else if nSize < nLeftPos + nCount then (.MDZ_ERROR_BIGCOUNT, some dd, some nSize)
    else (.MDZ_ERROR_NONE, some (removeBytes dd nSize nLeftPos nCount),
          some (nSize - nCount))

/-- Modelled from the spec: the pattern-occurrence removal loop of
mdz_ansi_alg_remove (spec section 4.4): repeatedly locate the leftmost
occurrence of the pattern at or after pos inside the window ending at r,
remove it, shift the window end left by nCount, and resume right at the
removal point (non-overlapping resume, spec section 9).  fuel bounds the
number of removals. -/
def removeLoop (ii : Nat → Byte) (nCount : Nat) :
    Nat → (Nat → Byte) → Nat → Nat → Nat → ((Nat → Byte) × Nat)
  | 0, dd, nSize, _, _ => (dd, nSize)
  | fuel + 1, dd, nSize, pos, r =>
    if r + 1 < pos + nCount then (dd, nSize)
    else
      match scanFirst (fun q => matchAt dd ii nCount q) pos (r + 2 - (pos + nCount)) with
      | none => (dd, nSize)
      | some p =>
        removeLoop ii nCount fuel (removeBytes dd nSize p nCount) (nSize - nCount) p
          (r - nCount)

/-- Modelled from the spec: mdz_ansi_alg_remove (header contract at
src/mdz_ansi_alg.h:279-300; implementation not under src/).  Checks follow the
documented error order; on success every occurrence of the pattern inside
[nLeftPos, nRightPos] is removed with cascading compaction. -/
def mdz_ansi_alg_remove (bAuth : Bool) (pcData : Option (Nat → Byte))
    (pnDataSize : Option Nat) (nLeftPos nRightPos : Nat)
    (pcItems : Option (Nat → Byte)) (nCount : Nat) :
    mdz_error × Option (Nat → Byte) × Option Nat :=
  if bAuth = false then (.MDZ_ERROR_LICENSE, pcData, pnDataSize) else
  match pcData, pnDataSize with
  | none, _ => (.MDZ_ERROR_DATA, pcData, pnDataSize)
  | some dd, none => (.MDZ_ERROR_SIZE, some dd, none)
  | some dd, some nSize =>
    if nSize = 0 then (.MDZ_ERROR_ZERO_SIZE, some dd, some nSize)
    else if dd nSize ≠ 0 then (.MDZ_ERROR_TERMINATOR, some dd, some nSize)
    else
      match pcItems with
      | none => (.MDZ_ERROR_ITEMS, some dd, some nSize)
      | some ii =>
        if nCount = 0 then (.MDZ_ERROR_ZERO_COUNT, some dd, some nSize)
        else if nSize ≤ nRightPos then (.MDZ_ERROR_BIGRIGHT, some dd, some nSize)
        else if nRightPos < nLeftPos then (.MDZ_ERROR_BIGLEFT, some dd, some nSize)
        else if nRightPos + 1 - nLeftPos < nCount then
          (.MDZ_ERROR_BIGCOUNT, some dd, some nSize)
        else
          let rr := removeLoop ii nCount nSize dd nSize nLeftPos nRightPos
          (.MDZ_ERROR_NONE, some rr.1, some rr.2)

/-- Modelled from the spec: mdz_ansi_alg_trimLeft (header contract at
src/mdz_ansi_alg.h:302-322; implementation not under src/).  The cursor moves
right from nLeftPos while the byte is in the pattern byte-set (stopping at the
first non-member or at the window end) and the spanned prefix is removed. -/
def mdz_ansi_alg_trimLeft (bAuth : Bool) (pcData : Option (Nat → Byte))
    (pnDataSize : Option Nat) (nLeftPos nRightPos : Nat)
    (pcItems : Option (Nat → Byte)) (nCount : Nat) :
    mdz_error × Option (Nat → Byte) × Option Nat :=
  if bAuth = false then (.MDZ_ERROR_LICENSE, pcData, pnDataSize) else
  match pcData, pnDataSize with
  | none, _ => (.MDZ_ERROR_DATA, pcData, pnDataSize)
  | some dd, none => (.MDZ_ERROR_SIZE, some dd, none)
  | some dd, some nSize =>
    if nSize = 0 then (.MDZ_ERROR_ZERO_SIZE, some dd, some nSize)
    else if dd nSize ≠ 0 then (.MDZ_ERROR_TERMINATOR, some dd, some nSize)
    else
      match pcItems with
      | none => (.MDZ_ERROR_ITEMS, some dd, some nSize)
      | some ii =>
        if nCount = 0 then (.MDZ_ERROR_ZERO_COUNT, some dd, some nSize)
        else if nSize ≤ nRightPos then (.MDZ_ERROR_BIGRIGHT, some dd, some nSize)
        else if nRightPos < nLeftPos then (.MDZ_ERROR_BIGLEFT, some dd, some nSize)
        else
          let cut :=
            match scanFirst (fun i => !(inSet ii nCount (dd i))) nLeftPos
                (nRightPos + 1 - nLeftPos) with
            | some m => m - nLeftPos
            | none => nRightPos + 1 - nLeftPos
          (.MDZ_ERROR_NONE, some (removeBytes dd nSize nLeftPos cut),
           some (nSize - cut))

/-- Modelled from the spec: mdz_ansi_alg_trimRight (header contract at
src/mdz_ansi_alg.h:324-344; implementation not under src/).  The cursor moves
left from nRightPos while the byte is in the pattern byte-set and the spanned
suffix is removed. -/
def mdz_ansi_alg_trimRight (bAuth : Bool) (pcData : Option (Nat → Byte))
    (pnDataSize : Option Nat) (nLeftPos nRightPos : Nat)
    (pcItems : Option (Nat → Byte)) (nCount : Nat) :
    mdz_error × Option (Nat → Byte) × Option Nat :=
  if bAuth = false then (.MDZ_ERROR_LICENSE, pcData, pnDataSize) else
  match pcData, pnDataSize with
  | none, _ => (.MDZ_ERROR_DATA, pcData, pnDataSize)
  | some dd, none => (.MDZ_ERROR_SIZE, some dd, none)
  | some dd, some nSize =>
    if nSize = 0 then (.MDZ_ERROR_ZERO_SIZE, some dd, some nSize)
    else if dd nSize ≠ 0 then (.MDZ_ERROR_TERMINATOR, some dd, some nSize)
    else
      match pcItems with
      | none => (.MDZ_ERROR_ITEMS, some dd, some nSize)
      | some ii =>
        if nCount = 0 then (.MDZ_ERROR_ZERO_COUNT, some dd, some nSize)
        else if nSize ≤ nRightPos then (.MDZ_ERROR_BIGRIGHT, some dd, some nSize)
        else if nRightPos < nLeftPos then (.MDZ_ERROR_BIGLEFT, some dd, some nSize)
        else
          let cut :=
            match scanLast (fun i => !(inSet ii nCount (dd i))) nRightPos
                (nRightPos + 1 - nLeftPos) with
            | some m => nRightPos - m
            | none => nRightPos + 1 - nLeftPos
          (.MDZ_ERROR_NONE, some (removeBytes dd nSize (nRightPos + 1 - cut) cut),
           some (nSize - cut))

/-- Modelled from the spec: mdz_ansi_alg_trim (header contract at
src/mdz_ansi_alg.h:346-366; implementation not under src/).  Both ends of the
window are trimmed: if every window byte is in the pattern byte-set the whole
window is removed, otherwise the suffix after the last non-member and the
prefix before the first non-member are removed. -/
def mdz_ansi_alg_trim (bAuth : Bool) (pcData : Option (Nat → Byte))
    (pnDataSize : Option Nat) (nLeftPos nRightPos : Nat)
    (pcItems : Option (Nat → Byte)) (nCount : Nat) :
    mdz_error × Option (Nat → Byte) × Option Nat :=
  if bAuth = false then (.MDZ_ERROR_LICENSE, pcData, pnDataSize) else
  match pcData, pnDataSize with
  | none, _ => (.MDZ_ERROR_DATA, pcData, pnDataSize)
  | some dd, none => (.MDZ_ERROR_SIZE, some dd, none)
  | some dd, some nSize =>
    if nSize = 0 then (.MDZ_ERROR_ZERO_SIZE, some dd, some nSize)
    else if dd nSize ≠ 0 then (.MDZ_ERROR_TERMINATOR, some dd, some nSize)
    else
      match pcItems with
      | none => (.MDZ_ERROR_ITEMS, some dd, some nSize)
      | some ii =>
        if nCount = 0 then (.MDZ_ERROR_ZERO_COUNT, some dd, some nSize)
        else if nSize ≤ nRightPos then (.MDZ_ERROR_BIGRIGHT, some dd, some nSize)
        else if nRightPos < nLeftPos then (.MDZ_ERROR_BIGLEFT, some dd, some nSize)
        else
          match scanFirst (fun i => !(inSet ii nCount (dd i))) nLeftPos
              (nRightPos + 1 - nLeftPos) with
          | none =>
            (.MDZ_ERROR_NONE,
             some (removeBytes dd nSize nLeftPos (nRightPos + 1 - nLeftPos)),
             some (nSize - (nRightPos + 1 - nLeftPos)))
          | some m =>
            match scanLast (fun i => !(inSet ii nCount (dd i))) nRightPos
                (nRightPos + 1 - nLeftPos) with
            | none =>
              (.MDZ_ERROR_NONE,
               some (removeBytes dd nSize nLeftPos (nRightPos + 1 - nLeftPos)),
               some (nSize - (nRightPos + 1 - nLeftPos)))
            | some mm =>
              let dd2 := removeBytes dd nSize (mm + 1) (nRightPos - mm)
              let s2 := nSize - (nRightPos - mm)
              (.MDZ_ERROR_NONE, some (removeBytes dd2 s2 nLeftPos (m - nLeftPos)),
               some (s2 - (m - nLeftPos)))

/-- Modelled from the spec: the counting loop of mdz_ansi_alg_count
(spec section 4.5): after a match at p the search resumes at p + nStep, where
nStep is 1 when overlapped matches are allowed and nCount otherwise; on a
mismatch the search advances one position.  fuel bounds the scan. -/
def countLoop (dd ii : Nat → Byte) (nCount nStep r : Nat) : Nat → Nat → Nat
  | 0, _ => 0
  | fuel + 1, pos =>
    if r + 1 < pos + nCount then 0
    else if matchAt dd ii nCount pos then
      countLoop dd ii nCount nStep r fuel (pos + nStep) + 1
    else countLoop dd ii nCount nStep r fuel (pos + 1)

/-- Modelled from the spec: mdz_ansi_alg_count (header contract at
src/mdz_ansi_alg.h:395-417; implementation not under src/).  Checks follow the
documented error order; on success the occurrences of the pattern inside
[nLeftPos, nRightPos] are counted with the overlap policy of bAllowOverlapped. -/
def mdz_ansi_alg_count (bAuth : Bool) (pcData : Option (Nat → Byte))
    (nLeftPos nRightPos : Nat) (pcItems : Option (Nat → Byte)) (nCount : Nat)
    (bAllowOverlapped : Bool) : Nat × mdz_error :=
  if bAuth = false then (SIZE_MAX, .MDZ_ERROR_LICENSE) else
  match pcData with
  | none => (SIZE_MAX, .MDZ_ERROR_DATA)
  | some dd =>
    match pcItems with
    | none => (SIZE_MAX, .MDZ_ERROR_ITEMS)
    | some ii =>
      if nCount = 0 then (SIZE_MAX, .MDZ_ERROR_ZERO_COUNT)
      else if nRightPos = SIZE_MAX then (SIZE_MAX, .MDZ_ERROR_BIGRIGHT)
      else if nRightPos < nLeftPos then (SIZE_MAX, .MDZ_ERROR_BIGLEFT)
      else if nRightPos + 1 - nLeftPos < nCount then (SIZE_MAX, .MDZ_ERROR_BIGCOUNT)
      else
        (countLoop dd ii nCount (if bAllowOverlapped then 1 else nCount) nRightPos
          (nRightPos + 2 - nLeftPos) nLeftPos, .MDZ_ERROR_NONE)

/-- Scenario buffer "aaa" with terminator (Size 3). -/
def bufAAA : Nat → Byte := bytesOf [97, 97, 97, 0]

/-- Scenario pattern "bb". -/
def patBB : Nat → Byte := bytesOf [98, 98]

/-- Scenario buffer "abcabc" with terminator (Size 6). -/
def bufABCABC : Nat → Byte := bytesOf [97, 98, 99, 97, 98, 99, 0]

/-- Scenario pattern "bc". -/
def patBC : Nat → Byte := bytesOf [98, 99]

/-- Scenario buffer "  hello  " with terminator (Size 9). -/
def bufHello : Nat → Byte := bytesOf [32, 32, 104, 101, 108, 108, 111, 32, 32, 0]

/-- Scenario pattern " " (one space). -/
def patSpace : Nat → Byte := bytesOf [32]

/-- Scenario buffer "xx" with terminator (Size 2). -/
def bufXX : Nat → Byte := bytesOf [120, 120, 0]

/-- Scenario buffer "   " (three spaces) with terminator (Size 3). -/
def bufSpaces : Nat → Byte := bytesOf [32, 32, 32, 0]

/-- Scenario buffer "aaaa" with terminator (Size 4). -/
def bufAAAA : Nat → Byte := bytesOf [97, 97, 97, 97, 0]

/-- Scenario pattern "aa". -/
def patAA : Nat → Byte := bytesOf [97, 97]

/-! Helper lemmas about the scanners and loops. -/

lemma scanFirst_eq_some (p : Nat → Bool) :
    ∀ fuel l m, scanFirst p l fuel = some m →
      p m = true ∧ l ≤ m ∧ m < l + fuel ∧ ∀ q, l ≤ q → q < m → p q = false
  | 0, l, m => by simp [scanFirst]
  | fuel + 1, l, m => by
    intro h
    rw [scanFirst] at h
    by_cases hp : p l = true
    · rw [if_pos hp] at h
      cases h
      exact ⟨hp, Nat.le_refl _, by omega, fun q hq1 hq2 => absurd hq1 (by omega)⟩
    · rw [if_neg hp] at h
      obtain ⟨h1, h2, h3, h4⟩ := scanFirst_eq_some p fuel (l + 1) m h
      refine ⟨h1, by omega, by omega, fun q hq1 hq2 => ?_⟩
      rcases Nat.eq_or_lt_of_le hq1 with hq | hq
      · subst hq; exact Bool.not_eq_true _ ▸ (by simpa using hp)
      · exact h4 q hq hq2

lemma scanFirst_eq_none (p : Nat → Bool) :
    ∀ fuel l, scanFirst p l fuel = none →
      ∀ q, l ≤ q → q < l + fuel → p q = false
  | 0, l => by intro _ q h1 h2; omega
  | fuel + 1, l => by
    intro h q h1 h2
    rw [scanFirst] at h
    by_cases hp : p l = true
    · rw [if_pos hp] at h; cases h
    · rw [if_neg hp] at h
      rcases Nat.eq_or_lt_of_le h1 with hq | hq
      · subst hq; simpa using hp
      · exact scanFirst_eq_none p fuel (l + 1) h q hq (by omega)

lemma scanFirst_eq_none_of (p : Nat → Bool) :
    ∀ fuel l, (∀ q, l ≤ q → q < l + fuel → p q = false) →
      scanFirst p l fuel = none
  | 0, l => by intro _; rfl
  | fuel + 1, l => by
    intro h
    rw [scanFirst]
    rw [if_neg (by simp [h l (Nat.le_refl _) (by omega)])]
    exact scanFirst_eq_none_of p fuel (l + 1) fun q h1 h2 => h q (by omega) (by omega)

lemma scanLast_eq_some (p : Nat → Bool) :
    ∀ fuel r m, scanLast p r fuel = some m →
      p m = true ∧ m ≤ r ∧ r < m + fuel ∧ ∀ q, m < q → q ≤ r → p q = false
  | 0, r, m => by simp [scanLast]
  | fuel + 1, r, m => by
    intro h
    rw [scanLast] at h
    by_cases hp : p r = true
    · rw [if_pos hp] at h
      cases h
      exact ⟨hp, Nat.le_refl _, by omega, fun q hq1 hq2 => absurd hq1 (by omega)⟩
    · rw [if_neg hp] at h
      obtain ⟨h1, h2, h3, h4⟩ := scanLast_eq_some p fuel (r - 1) m h
      refine ⟨h1, by omega, by omega, fun q hq1 hq2 => ?_⟩
      rcases Nat.eq_or_lt_of_le hq2 with hq | hq
      · subst hq; simpa using hp
      · exact h4 q hq1 (by omega)

lemma scanLast_eq_none (p : Nat → Bool) :
    ∀ fuel r, scanLast p r fuel = none →
      ∀ q, q ≤ r → r < q + fuel → p q = false
  | 0, r => by intro _ q h1 h2; omega
  | fuel + 1, r => by
    intro h q h1 h2
    rw [scanLast] at h
    by_cases hp : p r = true
    · rw [if_pos hp] at h; cases h
    · rw [if_neg hp] at h
      rcases Nat.eq_or_lt_of_le h1 with hq | hq
      · subst hq; simpa using hp
      · exact scanLast_eq_none p fuel (r - 1) h q (by omega) (by omega)

lemma countLoop_zero (dd ii : Nat → Byte) (nCount nStep r : Nat) :
    ∀ fuel pos, (∀ p, pos ≤ p → p + nCount ≤ r + 1 → matchAt dd ii nCount p = false) →
      countLoop dd ii nCount nStep r fuel pos = 0
  | 0, pos => fun _ => rfl
  | fuel + 1, pos => by
    intro h
    rw [countLoop]
    by_cases hg : r + 1 < pos + nCount
    · rw [if_pos hg]
    · rw [if_neg hg, if_neg (by simp [h pos (Nat.le_refl _) (by omega)])]
      exact countLoop_zero dd ii nCount nStep r fuel (pos + 1) fun p h1 h2 => h p (by omega) h2

lemma removeLoop_terminator (ii : Nat → Byte) (nCount : Nat) :
    ∀ fuel dd nSize pos r, dd nSize = 0 →
      (r < nSize ∨ (nSize = 0 ∧ r = 0)) →
      ((removeLoop ii nCount fuel dd nSize pos r).1)
        ((removeLoop ii nCount fuel dd nSize pos r).2) = 0
  | 0, dd, nSize, pos, r => fun h _ => h
  | fuel + 1, dd, nSize, pos, r => by
    intro hterm hinv
    rw [removeLoop]
    by_cases hg : r + 1 < pos + nCount
    · rw [if_pos hg]; exact hterm
    · rw [if_neg hg]
      cases hscan : scanFirst (fun q => matchAt dd ii nCount q) pos (r + 2 - (pos + nCount)) with
      | none => exact hterm
      | some p =>
        obtain ⟨-, hp1, hp2, -⟩ := scanFirst_eq_some _ _ _ _ hscan
        have hpb : p + nCount ≤ r + 1 := by omega
        apply removeLoop_terminator ii nCount fuel
        · unfold removeBytes
          rcases hinv with h | ⟨h1, h2⟩
          · rw [if_neg (by omega), if_neg (by omega)]; simp
          · subst h1
            simp only [Nat.zero_sub]
            by_cases hp0 : 0 < p
            · rw [if_pos hp0]; exact hterm
            · rw [if_neg hp0, if_neg (by omega)]; simp
        · omega

lemma insert_success (dd ii : Nat → Byte) (nSize nCap nLeft nCnt : Nat)
    (hcap0 : nCap ≠ 0) (hcapM : nCap ≠ SIZE_MAX) (hterm : dd nSize = 0)
    (hcnt : nCnt ≠ 0) (hleft : nLeft ≤ nSize) (hfit : nSize + nCnt ≤ nCap) :
    mdz_ansi_alg_insert true (some dd) (some nSize) nCap nLeft (some ii) nCnt false
      = (.MDZ_ERROR_NONE, some (insertBytes dd nSize nLeft ii nCnt),
         some (nSize + nCnt)) := by
  unfold mdz_ansi_alg_insert
  rw [if_neg (by simp)]
  change (if nCap = 0 ∨ nCap = SIZE_MAX then _ else _) = _
  rw [if_neg (fun h => h.elim hcap0 hcapM), if_neg (by simp [hterm])]
  change (if nCnt = 0 then _ else _) = _
  rw [if_neg hcnt, if_neg (by omega), if_neg (by omega), if_neg (by simp)]

lemma removeFrom_success (dd : Nat → Byte) (nSize nLeft nCnt : Nat)
    (hsz : nSize ≠ 0) (hterm : dd nSize = 0) (hcnt : nCnt ≠ 0)
    (hleft : nLeft < nSize) (hfit : nLeft + nCnt ≤ nSize) :
    mdz_ansi_alg_removeFrom true (some dd) (some nSize) nLeft nCnt
      = (.MDZ_ERROR_NONE, some (removeBytes dd nSize nLeft nCnt),
         some (nSize - nCnt)) := by
  unfold mdz_ansi_alg_removeFrom
  rw [if_neg (by simp)]
  change (if nSize = 0 then _ else _) = _
  rw [if_neg hsz, if_neg (by simp [hterm]), if_neg hcnt, if_neg (by omega),
    if_neg (by omega)]

/-! Claim theorems. -/

/-- Claim C1: for every call of mdz_ansi_alg_insert whose preconditions all
hold (library authorized, pcData, pnDataSize and pcItems non-null, capacity
valid, terminator present at old Size, nCount > 0, nLeftPos <= Size,
Size + nCount <= nDataCapacity, no Buffer/Pattern overlap), the call returns
MDZ_ERROR_NONE, the tail bytes [nLeftPos, Size) are shifted right by nCount,
the nCount pattern bytes are copied into the opened gap, the new size is
Size + nCount, and the terminator is rewritten at the new Size; in particular
inserting "bb" at position 1 into "aaa" (Size 3, Capacity 5) yields Size 5 and
content "abbaa". -/
theorem claim_C1_insert_correct (dd ii : Nat → Byte) (nSize nCap nLeft nCnt : Nat)
    (hcap0 : nCap ≠ 0) (hcapM : nCap ≠ SIZE_MAX) (hterm : dd nSize = 0)
    (hcnt : nCnt ≠ 0) (hleft : nLeft ≤ nSize) (hfit : nSize + nCnt ≤ nCap) :
    (mdz_ansi_alg_insert true (some dd) (some nSize) nCap nLeft (some ii) nCnt false
      = (.MDZ_ERROR_NONE, some (insertBytes dd nSize nLeft ii nCnt),
         some (nSize + nCnt)))
    ∧ (∀ i, i < nLeft → insertBytes dd nSize nLeft ii nCnt i = dd i)
    ∧ (∀ j, j < nCnt → insertBytes dd nSize nLeft ii nCnt (nLeft + j) = ii j)
    ∧ (∀ i, nLeft ≤ i → i < nSize → insertBytes dd nSize nLeft ii nCnt (i + nCnt) = dd i)
    ∧ insertBytes dd nSize nLeft ii nCnt (nSize + nCnt) = 0
    ∧ (mdz_ansi_alg_insert true (some bufAAA) (some 3) 5 1 (some patBB) 2 false).1
        = .MDZ_ERROR_NONE
    ∧ (mdz_ansi_alg_insert true (some bufAAA) (some 3) 5 1 (some patBB) 2 false).2.2
        = some 5
    ∧ outBytes (mdz_ansi_alg_insert true (some bufAAA) (some 3) 5 1 (some patBB) 2 false) 6
        = [97, 98, 98, 97, 97, 0] := by
  refine ⟨insert_success dd ii nSize nCap nLeft nCnt hcap0 hcapM hterm hcnt hleft hfit,
    ?_, ?_, ?_, ?_, by decide, by decide, by decide⟩
  · intro i h
    unfold insertBytes
    rw [if_pos h]
  · intro j h
    unfold insertBytes
    rw [if_neg (by omega), if_pos (by omega)]
    congr 1
    omega
  · intro i h1 h2
    unfold insertBytes
    rw [if_neg (by omega), if_neg (by omega), if_pos (by omega)]
    congr 1
    omega
  · unfold insertBytes
    rw [if_neg (by omega), if_neg (by omega), if_neg (by omega)]
    simp

/-- Witness for C1 at Scenario C: buffer "aaa" (Size 3, Capacity 5), inserting
"bb" at position 1. -/
theorem claim_C1_insert_correct_witness :
    (5 : Nat) ≠ 0 ∧ (5 : Nat) ≠ SIZE_MAX ∧ bufAAA 3 = 0 ∧ (2 : Nat) ≠ 0 ∧
      (1 : Nat) ≤ 3 ∧ 3 + 2 ≤ 5 ∧
      outBytes (mdz_ansi_alg_insert true (some bufAAA) (some 3) 5 1 (some patBB) 2 false) 6
        = [97, 98, 98, 97, 97, 0] :=
  ⟨by decide, by decide, by decide, by decide, by decide, by decide,
   (claim_C1_insert_correct bufAAA patBB 3 5 1 2 (by decide) (by decide) (by decide)
     (by decide) (by decide) (by decide)).2.2.2.2.2.2.2⟩

lemma insert_term_inv (bAuth : Bool) (pcData : Option (Nat → Byte))
    (pnDataSize : Option Nat) (nCap nLeft : Nat) (pcItems : Option (Nat → Byte))
    (nCnt : Nat) (bOv : Bool) (dd' : Nat → Byte) (s' : Nat)
    (h : mdz_ansi_alg_insert bAuth pcData pnDataSize nCap nLeft pcItems nCnt bOv
      = (.MDZ_ERROR_NONE, some dd', some s')) : dd' s' = 0 := by
  unfold mdz_ansi_alg_insert at h
  repeat' split at h
  any_goals simp_all
  obtain ⟨h1, h2⟩ := h
  subst h1
  subst h2
  unfold insertBytes
  rw [if_neg (by omega), if_neg (by omega), if_neg (by omega)]
  simp

lemma removeFrom_term_inv (bAuth : Bool) (pcData : Option (Nat → Byte))
    (pnDataSize : Option Nat) (nLeft nCnt : Nat) (dd' : Nat → Byte) (s' : Nat)
    (h : mdz_ansi_alg_removeFrom bAuth pcData pnDataSize nLeft nCnt
      = (.MDZ_ERROR_NONE, some dd', some s')) : dd' s' = 0 := by
  unfold mdz_ansi_alg_removeFrom at h
  repeat' split at h
  any_goals simp_all
  obtain ⟨h1, h2⟩ := h
  subst h1
  subst h2
  unfold removeBytes
  rw [if_neg (by omega), if_neg (by omega)]
  simp

lemma remove_term_inv (bAuth : Bool) (pcData : Option (Nat → Byte))
    (pnDataSize : Option Nat) (nLeft nRight : Nat) (pcItems : Option (Nat → Byte))
    (nCnt : Nat) (dd' : Nat → Byte) (s' : Nat)
    (h : mdz_ansi_alg_remove bAuth pcData pnDataSize nLeft nRight pcItems nCnt
      = (.MDZ_ERROR_NONE, some dd', some s')) : dd' s' = 0 := by
  unfold mdz_ansi_alg_remove at h
  repeat' split at h
  any_goals simp_all
  obtain ⟨h1, h2⟩ := h
  subst h1
  subst h2
  apply removeLoop_terminator
  · assumption
  · left; omega

lemma scanFirst_le_scanLast (p : Nat → Bool) (l r m mm : Nat) (hl : l ≤ r)
    (hf : scanFirst p l (r + 1 - l) = some m)
    (hg : scanLast p r (r + 1 - l) = some mm) : m ≤ mm := by
  obtain ⟨hpm, hm1, hm2, -⟩ := scanFirst_eq_some _ _ _ _ hf
  obtain ⟨-, hmm1, -, h4⟩ := scanLast_eq_some _ _ _ _ hg
  by_contra hcon
  push_neg at hcon
  have hfq := h4 m hcon (by omega)
  rw [hfq] at hpm
  cases hpm

lemma trimLeft_term_inv (bAuth : Bool) (pcData : Option (Nat → Byte))
    (pnDataSize : Option Nat) (nLeft nRight : Nat) (pcItems : Option (Nat → Byte))
    (nCnt : Nat) (dd' : Nat → Byte) (s' : Nat)
    (h : mdz_ansi_alg_trimLeft bAuth pcData pnDataSize nLeft nRight pcItems nCnt
      = (.MDZ_ERROR_NONE, some dd', some s')) : dd' s' = 0 := by
  unfold mdz_ansi_alg_trimLeft at h
  repeat' split at h
  any_goals simp_all
  all_goals obtain ⟨h1, h2⟩ := h
  all_goals subst h1
  all_goals subst h2
  · rename_i pcD pnD dd nSize pcI ii xx m hauth hsz hterm hcnt hbr hbl heq
    obtain ⟨-, hm1, hm2, -⟩ := scanFirst_eq_some _ _ _ _ heq
    clear heq hterm hauth pcD pnD pcI xx
    have hkey : ¬(nSize - (m - nLeft) < nLeft) := by omega
    unfold removeBytes
    rw [if_neg hkey, if_neg (by omega)]
    simp
  · rename_i pcD pnD dd nSize pcI ii xx hauth hsz hterm hcnt hbr hbl heq
    clear heq hterm hauth pcD pnD pcI xx
    have hkey : ¬(nSize - (nRight + 1 - nLeft) < nLeft) := by omega
    unfold removeBytes
    rw [if_neg hkey, if_neg (by omega)]
    simp

lemma trimRight_term_inv (bAuth : Bool) (pcData : Option (Nat → Byte))
    (pnDataSize : Option Nat) (nLeft nRight : Nat) (pcItems : Option (Nat → Byte))
    (nCnt : Nat) (dd' : Nat → Byte) (s' : Nat)
    (h : mdz_ansi_alg_trimRight bAuth pcData pnDataSize nLeft nRight pcItems nCnt
      = (.MDZ_ERROR_NONE, some dd', some s')) : dd' s' = 0 := by
  unfold mdz_ansi_alg_trimRight at h
  repeat' split at h
  any_goals simp_all
  all_goals obtain ⟨h1, h2⟩ := h
  all_goals subst h1
  all_goals subst h2
  all_goals unfold removeBytes
  all_goals rw [if_neg (by omega), if_neg (by omega)]
  all_goals simp

lemma trim_term_inv (bAuth : Bool) (pcData : Option (Nat → Byte))
    (pnDataSize : Option Nat) (nLeft nRight : Nat) (pcItems : Option (Nat → Byte))
    (nCnt : Nat) (dd' : Nat → Byte) (s' : Nat)
    (h : mdz_ansi_alg_trim bAuth pcData pnDataSize nLeft nRight pcItems nCnt
      = (.MDZ_ERROR_NONE, some dd', some s')) : dd' s' = 0 := by
  unfold mdz_ansi_alg_trim at h
  repeat' split at h
  any_goals simp_all
  all_goals obtain ⟨h1, h2⟩ := h
  all_goals subst h1
  all_goals subst h2
  · -- no non-member in the window: the whole window is removed
    unfold removeBytes
    rw [if_neg (by omega), if_neg (by omega)]
    simp
  · -- unreachable nested branch, also removes the whole window
    unfold removeBytes
    rw [if_neg (by omega), if_neg (by omega)]
    simp
  · -- first non-member m and last non-member mm
    rename_i heqF heqL
    have hmmm := scanFirst_le_scanLast _ _ _ _ _ (by omega) heqF heqL
    obtain ⟨-, hmF1, hmF2, -⟩ := scanFirst_eq_some _ _ _ _ heqF
    obtain ⟨-, hmL1, hmL2, -⟩ := scanLast_eq_some _ _ _ _ heqL
    unfold removeBytes
    rw [if_neg (by omega), if_neg (by omega)]
    simp

lemma insert_atomic (bAuth : Bool) (pcData : Option (Nat → Byte))
    (pnDataSize : Option Nat) (nCap nLeft : Nat) (pcItems : Option (Nat → Byte))
    (nCnt : Nat) (bOv : Bool) :
    (mdz_ansi_alg_insert bAuth pcData pnDataSize nCap nLeft pcItems nCnt bOv).1
        = .MDZ_ERROR_NONE ∨
    ((mdz_ansi_alg_insert bAuth pcData pnDataSize nCap nLeft pcItems nCnt bOv).2.1
        = pcData ∧
     (mdz_ansi_alg_insert bAuth pcData pnDataSize nCap nLeft pcItems nCnt bOv).2.2
        = pnDataSize) := by
  unfold mdz_ansi_alg_insert
  repeat' split
  all_goals first
    | (left; rfl)
    | (right; exact ⟨rfl, rfl⟩)

lemma removeFrom_atomic (bAuth : Bool) (pcData : Option (Nat → Byte))
    (pnDataSize : Option Nat) (nLeft nCnt : Nat) :
    (mdz_ansi_alg_removeFrom bAuth pcData pnDataSize nLeft nCnt).1
        = .MDZ_ERROR_NONE ∨
    ((mdz_ansi_alg_removeFrom bAuth pcData pnDataSize nLeft nCnt).2.1 = pcData ∧
     (mdz_ansi_alg_removeFrom bAuth pcData pnDataSize nLeft nCnt).2.2 = pnDataSize) := by
  unfold mdz_ansi_alg_removeFrom
  repeat' split
  all_goals first
    | (left; rfl)
    | (right; exact ⟨rfl, rfl⟩)

lemma remove_atomic (bAuth : Bool) (pcData : Option (Nat → Byte))
    (pnDataSize : Option Nat) (nLeft nRight : Nat) (pcItems : Option (Nat → Byte))
    (nCnt : Nat) :
    (mdz_ansi_alg_remove bAuth pcData pnDataSize nLeft nRight pcItems nCnt).1
        = .MDZ_ERROR_NONE ∨
    ((mdz_ansi_alg_remove bAuth pcData pnDataSize nLeft nRight pcItems nCnt).2.1
        = pcData ∧
     (mdz_ansi_alg_remove bAuth pcData pnDataSize nLeft nRight pcItems nCnt).2.2
        = pnDataSize) := by
  unfold mdz_ansi_alg_remove
  repeat' split
  all_goals first
    | (left; rfl)
    | (right; exact ⟨rfl, rfl⟩)

lemma trimLeft_atomic (bAuth : Bool) (pcData : Option (Nat → Byte))
    (pnDataSize : Option Nat) (nLeft nRight : Nat) (pcItems : Option (Nat → Byte))
    (nCnt : Nat) :
    (mdz_ansi_alg_trimLeft bAuth pcData pnDataSize nLeft nRight pcItems nCnt).1
        = .MDZ_ERROR_NONE ∨
    ((mdz_ansi_alg_trimLeft bAuth pcData pnDataSize nLeft nRight pcItems nCnt).2.1
        = pcData ∧
     (mdz_ansi_alg_trimLeft bAuth pcData pnDataSize nLeft nRight pcItems nCnt).2.2
        = pnDataSize) := by
  unfold mdz_ansi_alg_trimLeft
  repeat' split
  all_goals first
    | (left; rfl)
    | (right; exact ⟨rfl, rfl⟩)

lemma trimRight_atomic (bAuth : Bool) (pcData : Option (Nat → Byte))
    (pnDataSize : Option Nat) (nLeft nRight : Nat) (pcItems : Option (Nat → Byte))
    (nCnt : Nat) :
    (mdz_ansi_alg_trimRight bAuth pcData pnDataSize nLeft nRight pcItems nCnt).1
        = .MDZ_ERROR_NONE ∨
    ((mdz_ansi_alg_trimRight bAuth pcData pnDataSize nLeft nRight pcItems nCnt).2.1
        = pcData ∧
     (mdz_ansi_alg_trimRight bAuth pcData pnDataSize nLeft nRight pcItems nCnt).2.2
        = pnDataSize) := by
  unfold mdz_ansi_alg_trimRight
  repeat' split
  all_goals first
    | (left; rfl)
    | (right; exact ⟨rfl, rfl⟩)

lemma trim_atomic (bAuth : Bool) (pcData : Option (Nat → Byte))
    (pnDataSize : Option Nat) (nLeft nRight : Nat) (pcItems : Option (Nat → Byte))
    (nCnt : Nat) :
    (mdz_ansi_alg_trim bAuth pcData pnDataSize nLeft nRight pcItems nCnt).1
        = .MDZ_ERROR_NONE ∨
    ((mdz_ansi_alg_trim bAuth pcData pnDataSize nLeft nRight pcItems nCnt).2.1
        = pcData ∧
     (mdz_ansi_alg_trim bAuth pcData pnDataSize nLeft nRight pcItems nCnt).2.2
        = pnDataSize) := by
  unfold mdz_ansi_alg_trim
  repeat' split
  all_goals first
    | (left; rfl)
    | (right; exact ⟨rfl, rfl⟩)

/-- Claim C2: every size-changing operation (insert, removeFrom, remove,
trimLeft, trimRight, trim) preserves the terminator invariant: whenever it
returns MDZ_ERROR_NONE and stores a new size in the size holder, the byte at
offset new-size of the resulting buffer is 0x00. -/
theorem claim_C2_terminator_invariant :
    (∀ bAuth pcData pnDataSize nCap nLeft pcItems nCnt bOv dd' s',
      mdz_ansi_alg_insert bAuth pcData pnDataSize nCap nLeft pcItems nCnt bOv
        = (.MDZ_ERROR_NONE, some dd', some s') → dd' s' = 0)
    ∧ (∀ bAuth pcData pnDataSize nLeft nCnt dd' s',
      mdz_ansi_alg_removeFrom bAuth pcData pnDataSize nLeft nCnt
        = (.MDZ_ERROR_NONE, some dd', some s') → dd' s' = 0)
    ∧ (∀ bAuth pcData pnDataSize nLeft nRight pcItems nCnt dd' s',
      mdz_ansi_alg_remove bAuth pcData pnDataSize nLeft nRight pcItems nCnt
        = (.MDZ_ERROR_NONE, some dd', some s') → dd' s' = 0)
    ∧ (∀ bAuth pcData pnDataSize nLeft nRight pcItems nCnt dd' s',
      mdz_ansi_alg_trimLeft bAuth pcData pnDataSize nLeft nRight pcItems nCnt
        = (.MDZ_ERROR_NONE, some dd', some s') → dd' s' = 0)
    ∧ (∀ bAuth pcData pnDataSize nLeft nRight pcItems nCnt dd' s',
      mdz_ansi_alg_trimRight bAuth pcData pnDataSize nLeft nRight pcItems nCnt
        = (.MDZ_ERROR_NONE, some dd', some s') → dd' s' = 0)
    ∧ (∀ bAuth pcData pnDataSize nLeft nRight pcItems nCnt dd' s',
      mdz_ansi_alg_trim bAuth pcData pnDataSize nLeft nRight pcItems nCnt
        = (.MDZ_ERROR_NONE, some dd', some s') → dd' s' = 0) := by
  refine ⟨?_, ?_, ?_, ?_, ?_, ?_⟩
  · intro bAuth pcData pnDataSize nCap nLeft pcItems nCnt bOv dd' s' h
    exact insert_term_inv bAuth pcData pnDataSize nCap nLeft pcItems nCnt bOv dd' s' h
  · intro bAuth pcData pnDataSize nLeft nCnt dd' s' h
    exact removeFrom_term_inv bAuth pcData pnDataSize nLeft nCnt dd' s' h
  · intro bAuth pcData pnDataSize nLeft nRight pcItems nCnt dd' s' h
    exact remove_term_inv bAuth pcData pnDataSize nLeft nRight pcItems nCnt dd' s' h
  · intro bAuth pcData pnDataSize nLeft nRight pcItems nCnt dd' s' h
    exact trimLeft_term_inv bAuth pcData pnDataSize nLeft nRight pcItems nCnt dd' s' h
  · intro bAuth pcData pnDataSize nLeft nRight pcItems nCnt dd' s' h
    exact trimRight_term_inv bAuth pcData pnDataSize nLeft nRight pcItems nCnt dd' s' h
  · intro bAuth pcData pnDataSize nLeft nRight pcItems nCnt dd' s' h
    exact trim_term_inv bAuth pcData pnDataSize nLeft nRight pcItems nCnt dd' s' h

/-- Witness for C2 at Scenario C: the successful insert of "bb" into "aaa"
leaves a zero byte at the new size 5. -/
theorem claim_C2_terminator_invariant_witness :
    mdz_ansi_alg_insert true (some bufAAA) (some 3) 5 1 (some patBB) 2 false
      = (.MDZ_ERROR_NONE, some (insertBytes bufAAA 3 1 patBB 2), some 5)
    ∧ insertBytes bufAAA 3 1 patBB 2 5 = 0 :=
  ⟨rfl, claim_C2_terminator_invariant.1 true (some bufAAA) (some 3) 5 1 (some patBB) 2
    false (insertBytes bufAAA 3 1 patBB 2) 5 rfl⟩

/-- Claim C3: every mutating operation is atomic on failure: a call returning
an error other than MDZ_ERROR_NONE leaves the buffer bytes and the stored size
exactly as they were; in particular removeFrom on "xx" (Size 2) with nLeftPos 0
and nCount 3 returns MDZ_ERROR_BIGCOUNT and Size remains 2. -/
theorem claim_C3_atomic_failure :
    (∀ bAuth pcData pnDataSize nCap nLeft pcItems nCnt bOv,
      (mdz_ansi_alg_insert bAuth pcData pnDataSize nCap nLeft pcItems nCnt bOv).1
          ≠ .MDZ_ERROR_NONE →
        (mdz_ansi_alg_insert bAuth pcData pnDataSize nCap nLeft pcItems nCnt bOv).2.1
            = pcData ∧
        (mdz_ansi_alg_insert bAuth pcData pnDataSize nCap nLeft pcItems nCnt bOv).2.2
            = pnDataSize)
    ∧ (∀ bAuth pcData pnDataSize nLeft nCnt,
      (mdz_ansi_alg_removeFrom bAuth pcData pnDataSize nLeft nCnt).1
          ≠ .MDZ_ERROR_NONE →
        (mdz_ansi_alg_removeFrom bAuth pcData pnDataSize nLeft nCnt).2.1 = pcData ∧
        (mdz_ansi_alg_removeFrom bAuth pcData pnDataSize nLeft nCnt).2.2 = pnDataSize)
    ∧ (∀ bAuth pcData pnDataSize nLeft nRight pcItems nCnt,
      (mdz_ansi_alg_remove bAuth pcData pnDataSize nLeft nRight pcItems nCnt).1
          ≠ .MDZ_ERROR_NONE →
        (mdz_ansi_alg_remove bAuth pcData pnDataSize nLeft nRight pcItems nCnt).2.1
            = pcData ∧
        (mdz_ansi_alg_remove bAuth pcData pnDataSize nLeft nRight pcItems nCnt).2.2
            = pnDataSize)
    ∧ (∀ bAuth pcData pnDataSize nLeft nRight pcItems nCnt,
      (mdz_ansi_alg_trimLeft bAuth pcData pnDataSize nLeft nRight pcItems nCnt).1
          ≠ .MDZ_ERROR_NONE →
        (mdz_ansi_alg_trimLeft bAuth pcData pnDataSize nLeft nRight pcItems nCnt).2.1
            = pcData ∧
        (mdz_ansi_alg_trimLeft bAuth pcData pnDataSize nLeft nRight pcItems nCnt).2.2
            = pnDataSize)
    ∧ (∀ bAuth pcData pnDataSize nLeft nRight pcItems nCnt,
      (mdz_ansi_alg_trimRight bAuth pcData pnDataSize nLeft nRight pcItems nCnt).1
          ≠ .MDZ_ERROR_NONE →
        (mdz_ansi_alg_trimRight bAuth pcData pnDataSize nLeft nRight pcItems nCnt).2.1
            = pcData ∧
        (mdz_ansi_alg_trimRight bAuth pcData pnDataSize nLeft nRight pcItems nCnt).2.2
            = pnDataSize)
    ∧ (∀ bAuth pcData pnDataSize nLeft nRight pcItems nCnt,
      (mdz_ansi_alg_trim bAuth pcData pnDataSize nLeft nRight pcItems nCnt).1
          ≠ .MDZ_ERROR_NONE →
        (mdz_ansi_alg_trim bAuth pcData pnDataSize nLeft nRight pcItems nCnt).2.1
            = pcData ∧
        (mdz_ansi_alg_trim bAuth pcData pnDataSize nLeft nRight pcItems nCnt).2.2
            = pnDataSize)
    ∧ (mdz_ansi_alg_removeFrom true (some bufXX) (some 2) 0 3).1
        = .MDZ_ERROR_BIGCOUNT
    ∧ (mdz_ansi_alg_removeFrom true (some bufXX) (some 2) 0 3).2.2 = some 2 := by
  refine ⟨?_, ?_, ?_, ?_, ?_, ?_, by decide, by decide⟩
  · intro bAuth pcData pnDataSize nCap nLeft pcItems nCnt bOv h
    rcases insert_atomic bAuth pcData pnDataSize nCap nLeft pcItems nCnt bOv with h1 | h2
    · exact absurd h1 h
    · exact h2
  · intro bAuth pcData pnDataSize nLeft nCnt h
    rcases removeFrom_atomic bAuth pcData pnDataSize nLeft nCnt with h1 | h2
    · exact absurd h1 h
    · exact h2
  · intro bAuth pcData pnDataSize nLeft nRight pcItems nCnt h
    rcases remove_atomic bAuth pcData pnDataSize nLeft nRight pcItems nCnt with h1 | h2
    · exact absurd h1 h
    · exact h2
  · intro bAuth pcData pnDataSize nLeft nRight pcItems nCnt h
    rcases trimLeft_atomic bAuth pcData pnDataSize nLeft nRight pcItems nCnt with h1 | h2
    · exact absurd h1 h
    · exact h2
  · intro bAuth pcData pnDataSize nLeft nRight pcItems nCnt h
    rcases trimRight_atomic bAuth pcData pnDataSize nLeft nRight pcItems nCnt with h1 | h2
    · exact absurd h1 h
    · exact h2
  · intro bAuth pcData pnDataSize nLeft nRight pcItems nCnt h
    rcases trim_atomic bAuth pcData pnDataSize nLeft nRight pcItems nCnt with h1 | h2
    · exact absurd h1 h
    · exact h2

/-- Witness for C3 at Scenario D: the failing removeFrom on "xx" leaves the
buffer pointer contents and the stored size untouched. -/
theorem claim_C3_atomic_failure_witness :
    (mdz_ansi_alg_removeFrom true (some bufXX) (some 2) 0 3).1 ≠ .MDZ_ERROR_NONE
    ∧ ((mdz_ansi_alg_removeFrom true (some bufXX) (some 2) 0 3).2.1 = some bufXX
       ∧ (mdz_ansi_alg_removeFrom true (some bufXX) (some 2) 0 3).2.2 = some 2) :=
  ⟨by decide, claim_C3_atomic_failure.2.1 true (some bufXX) (some 2) 0 3 (by decide)⟩

/-- Claim C4: mdz_ansi_alg_find returns the position of the first (leftmost)
exact occurrence of the pattern in the closed window [nLeftPos, nRightPos] and
mdz_ansi_alg_rfind the last (rightmost); in particular on "abcabc" (Size 6)
find of "bc" over [0,5] returns 1 and rfind returns 4. -/
theorem claim_C4_find_rfind (dd ii : Nat → Byte) (nLeftPos nRightPos nCount : Nat)
    (hcnt : nCount ≠ 0) (hR : nRightPos < SIZE_MAX) (hLR : nLeftPos ≤ nRightPos)
    (hfit : nCount ≤ nRightPos + 1 - nLeftPos) :
    ((mdz_ansi_alg_find true (some dd) nLeftPos nRightPos (some ii) nCount).2
        = .MDZ_ERROR_NONE
      ∧ (∀ m, (mdz_ansi_alg_find true (some dd) nLeftPos nRightPos (some ii) nCount).1
            = m → m ≠ SIZE_MAX →
          nLeftPos ≤ m ∧ m + nCount ≤ nRightPos + 1 ∧ matchAt dd ii nCount m = true ∧
          ∀ q, nLeftPos ≤ q → q < m → matchAt dd ii nCount q = false)
      ∧ ((∃ q, nLeftPos ≤ q ∧ q + nCount ≤ nRightPos + 1 ∧ matchAt dd ii nCount q = true)
          → (mdz_ansi_alg_find true (some dd) nLeftPos nRightPos (some ii) nCount).1
              ≠ SIZE_MAX))
    ∧ ((mdz_ansi_alg_rfind true (some dd) nLeftPos nRightPos (some ii) nCount).2
        = .MDZ_ERROR_NONE
      ∧ (∀ m, (mdz_ansi_alg_rfind true (some dd) nLeftPos nRightPos (some ii) nCount).1
            = m → m ≠ SIZE_MAX →
          nLeftPos ≤ m ∧ m + nCount ≤ nRightPos + 1 ∧ matchAt dd ii nCount m = true ∧
          ∀ q, m < q → q + nCount ≤ nRightPos + 1 → matchAt dd ii nCount q = false)
      ∧ ((∃ q, nLeftPos ≤ q ∧ q + nCount ≤ nRightPos + 1 ∧ matchAt dd ii nCount q = true)
          → (mdz_ansi_alg_rfind true (some dd) nLeftPos nRightPos (some ii) nCount).1
              ≠ SIZE_MAX))
    ∧ mdz_ansi_alg_find true (some bufABCABC) 0 5 (some patBC) 2 = (1, .MDZ_ERROR_NONE)
    ∧ mdz_ansi_alg_rfind true (some bufABCABC) 0 5 (some patBC) 2
        = (4, .MDZ_ERROR_NONE) := by
  refine ⟨?_, ?_, by decide, by decide⟩
  · cases hE : scanFirst (fun q => matchAt dd ii nCount q) nLeftPos
        (nRightPos + 1 - nLeftPos - (nCount - 1)) with
    | some m =>
      have hfind : mdz_ansi_alg_find true (some dd) nLeftPos nRightPos (some ii) nCount
          = (m, .MDZ_ERROR_NONE) := by
        unfold mdz_ansi_alg_find
        rw [if_neg (by simp)]
        change (if nCount = 0 then _ else _) = _
        rw [if_neg hcnt, if_neg (Nat.ne_of_lt hR), if_neg (by omega),
          if_neg (by omega), hE]
      obtain ⟨hp, hb1, hb2, hmin⟩ := scanFirst_eq_some _ _ _ _ hE
      rw [hfind]
      refine ⟨rfl, ?_, ?_⟩
      · intro m2 hm2 hne
        obtain rfl : m = m2 := hm2
        exact ⟨hb1, by omega, hp, hmin⟩
      · intro hex
        have hmR : m + nCount ≤ nRightPos + 1 := by omega
        exact Nat.ne_of_lt (by omega)
    | none =>
      have hfind : mdz_ansi_alg_find true (some dd) nLeftPos nRightPos (some ii) nCount
          = (SIZE_MAX, .MDZ_ERROR_NONE) := by
        unfold mdz_ansi_alg_find
        rw [if_neg (by simp)]
        change (if nCount = 0 then _ else _) = _
        rw [if_neg hcnt, if_neg (Nat.ne_of_lt hR), if_neg (by omega),
          if_neg (by omega), hE]
      have hnone := scanFirst_eq_none _ _ _ hE
      rw [hfind]
      refine ⟨rfl, ?_, ?_⟩
      · intro m2 hm2 hne
        obtain rfl : SIZE_MAX = m2 := hm2
        exact absurd rfl hne
      · rintro ⟨q, hq1, hq2, hq3⟩
        have := hnone q hq1 (by omega)
        rw [this] at hq3
        cases hq3
  · cases hE : scanLast (fun q => matchAt dd ii nCount q) (nRightPos + 1 - nCount)
        (nRightPos + 1 - nLeftPos - (nCount - 1)) with
    | some m =>
      have hrfind : mdz_ansi_alg_rfind true (some dd) nLeftPos nRightPos (some ii) nCount
          = (m, .MDZ_ERROR_NONE) := by
        unfold mdz_ansi_alg_rfind
        rw [if_neg (by simp)]
        change (if nCount = 0 then _ else _) = _
        rw [if_neg hcnt, if_neg (Nat.ne_of_lt hR), if_neg (by omega),
          if_neg (by omega), hE]
      obtain ⟨hp, hb1, hb2, hmax⟩ := scanLast_eq_some _ _ _ _ hE
      rw [hrfind]
      refine ⟨rfl, ?_, ?_⟩
      · intro m2 hm2 hne
        obtain rfl : m = m2 := hm2
        refine ⟨by omega, by omega, hp, ?_⟩
        intro q hq1 hq2
        exact hmax q hq1 (by omega)
      · intro hex
        exact Nat.ne_of_lt (by omega)
    | none =>
      have hrfind : mdz_ansi_alg_rfind true (some dd) nLeftPos nRightPos (some ii) nCount
          = (SIZE_MAX, .MDZ_ERROR_NONE) := by
        unfold mdz_ansi_alg_rfind
        rw [if_neg (by simp)]
        change (if nCount = 0 then _ else _) = _
        rw [if_neg hcnt, if_neg (Nat.ne_of_lt hR), if_neg (by omega),
          if_neg (by omega), hE]
      have hnone := scanLast_eq_none _ _ _ hE
      rw [hrfind]
      refine ⟨rfl, ?_, ?_⟩
      · intro m2 hm2 hne
        obtain rfl : SIZE_MAX = m2 := hm2
        exact absurd rfl hne
      · rintro ⟨q, hq1, hq2, hq3⟩
        have := hnone q (by omega) (by omega)
        rw [this] at hq3
        cases hq3

/-- Witness for C4 at Scenario A: find and rfind of "bc" in "abcabc". -/
theorem claim_C4_find_rfind_witness :
    (2 : Nat) ≠ 0 ∧ (5 : Nat) < SIZE_MAX ∧ (0 : Nat) ≤ 5 ∧ (2 : Nat) ≤ 5 + 1 - 0 ∧
    mdz_ansi_alg_find true (some bufABCABC) 0 5 (some patBC) 2 = (1, .MDZ_ERROR_NONE) ∧
    mdz_ansi_alg_rfind true (some bufABCABC) 0 5 (some patBC) 2
      = (4, .MDZ_ERROR_NONE) :=
  ⟨by decide, by decide, by decide, by decide,
   (claim_C4_find_rfind bufABCABC patBC 0 5 2 (by decide) (by decide) (by decide)
     (by decide)).2.2.1,
   (claim_C4_find_rfind bufABCABC patBC 0 5 2 (by decide) (by decide) (by decide)
     (by decide)).2.2.2⟩

lemma insertBytes_terminator (dd ii : Nat → Byte) (nSize nLeft nCnt : Nat)
    (hleft : nLeft ≤ nSize) :
    insertBytes dd nSize nLeft ii nCnt (nSize + nCnt) = 0 := by
  unfold insertBytes
  rw [if_neg (by omega), if_neg (by omega), if_neg (by omega)]
  simp

/-- Claim C5: round-trip: whenever an insertion of nCnt bytes at position
nLeft satisfies all of insert's preconditions and succeeds, a subsequent
removeFrom at nLeft with count nCnt returns MDZ_ERROR_NONE and restores the
buffer's content (all bytes up to and including the terminator at Size) and
Size to the pre-insertion state. -/
theorem claim_C5_round_trip (dd ii : Nat → Byte) (nSize nCap nLeft nCnt : Nat)
    (hcap0 : nCap ≠ 0) (hcapM : nCap ≠ SIZE_MAX) (hterm : dd nSize = 0)
    (hcnt : nCnt ≠ 0) (hleft : nLeft ≤ nSize) (hfit : nSize + nCnt ≤ nCap) :
    (mdz_ansi_alg_removeFrom true
        (mdz_ansi_alg_insert true (some dd) (some nSize) nCap nLeft (some ii) nCnt
          false).2.1
        (mdz_ansi_alg_insert true (some dd) (some nSize) nCap nLeft (some ii) nCnt
          false).2.2
        nLeft nCnt
      = (.MDZ_ERROR_NONE,
         some (removeBytes (insertBytes dd nSize nLeft ii nCnt) (nSize + nCnt)
           nLeft nCnt),
         some nSize))
    ∧ (∀ i, i ≤ nSize →
        removeBytes (insertBytes dd nSize nLeft ii nCnt) (nSize + nCnt) nLeft nCnt i
          = dd i) := by
  have hins := insert_success dd ii nSize nCap nLeft nCnt hcap0 hcapM hterm hcnt
    hleft hfit
  rw [hins]
  refine ⟨?_, ?_⟩
  · change mdz_ansi_alg_removeFrom true (some (insertBytes dd nSize nLeft ii nCnt))
        (some (nSize + nCnt)) nLeft nCnt = _
    rw [removeFrom_success _ _ _ _ (by omega)
      (insertBytes_terminator dd ii nSize nLeft nCnt hleft) hcnt (by omega) (by omega)]
    simp
  · intro i hi
    unfold removeBytes
    by_cases h1 : i < nLeft
    · rw [if_pos h1]
      unfold insertBytes
      rw [if_pos h1]
    · by_cases h2 : i < nSize + nCnt - nCnt
      · rw [if_neg h1, if_pos h2]
        unfold insertBytes
        rw [if_neg (by omega), if_neg (by omega), if_pos (by omega)]
        congr 1
        omega
      · rw [if_neg h1, if_neg h2, if_pos (by omega)]
        have hieq : i = nSize := by omega
        rw [hieq, hterm]

/-- Witness for C5 at Scenario C: inserting "bb" at position 1 of "aaa" and
then removing two bytes at position 1 restores the original bytes and size. -/
theorem claim_C5_round_trip_witness :
    mdz_ansi_alg_removeFrom true
        (mdz_ansi_alg_insert true (some bufAAA) (some 3) 5 1 (some patBB) 2
          false).2.1
        (mdz_ansi_alg_insert true (some bufAAA) (some 3) 5 1 (some patBB) 2
          false).2.2
        1 2
      = (.MDZ_ERROR_NONE,
         some (removeBytes (insertBytes bufAAA 3 1 patBB 2) 5 1 2), some 3) :=
  (claim_C5_round_trip bufAAA patBB 3 5 1 2 (by decide) (by decide) (by decide)
    (by decide) (by decide) (by decide)).1

lemma count_sentinel (bAuth : Bool) (pcData : Option (Nat → Byte))
    (nLeftPos nRightPos : Nat) (pcItems : Option (Nat → Byte)) (nCount : Nat)
    (bOv : Bool) :
    (mdz_ansi_alg_count bAuth pcData nLeftPos nRightPos pcItems nCount bOv).2
        = .MDZ_ERROR_NONE ∨
    (mdz_ansi_alg_count bAuth pcData nLeftPos nRightPos pcItems nCount bOv).1
        = SIZE_MAX := by
  unfold mdz_ansi_alg_count
  repeat' split
  all_goals first
    | (left; rfl)
    | (right; rfl)

lemma countLoop_le (dd ii : Nat → Byte) (nCount nStep r : Nat)
    (hs1 : 0 < nStep) (hs2 : nStep ≤ nCount) :
    ∀ fuel pos, countLoop dd ii nCount nStep r fuel pos ≤ r + 1 - pos
  | 0, pos => Nat.zero_le _
  | fuel + 1, pos => by
    rw [countLoop]
    by_cases hg : r + 1 < pos + nCount
    · rw [if_pos hg]
      exact Nat.zero_le _
    · rw [if_neg hg]
      by_cases hm : matchAt dd ii nCount pos = true
      · rw [if_pos hm]
        have ih := countLoop_le dd ii nCount nStep r hs1 hs2 fuel (pos + nStep)
        omega
      · rw [if_neg hm]
        have ih := countLoop_le dd ii nCount nStep r hs1 hs2 fuel (pos + 1)
        omega

lemma count_result_le (bAuth : Bool) (pcData : Option (Nat → Byte))
    (nLeftPos nRightPos : Nat) (pcItems : Option (Nat → Byte)) (nCount : Nat)
    (bOv : Bool) :
    (mdz_ansi_alg_count bAuth pcData nLeftPos nRightPos pcItems nCount bOv).2
        ≠ .MDZ_ERROR_NONE ∨
    (mdz_ansi_alg_count bAuth pcData nLeftPos nRightPos pcItems nCount bOv).1
        ≤ nRightPos + 1 - nLeftPos := by
  unfold mdz_ansi_alg_count
  repeat' split
  all_goals first
    | (left; decide)
    | (right
       exact countLoop_le _ _ _ _ _ (by omega) (by omega) _ _)

lemma countLoop_all_match (dd ii : Nat → Byte) (r : Nat)
    (hall : ∀ p, matchAt dd ii 1 p = true) :
    ∀ fuel pos, r + 1 ≤ pos + fuel →
      countLoop dd ii 1 1 r fuel pos = r + 1 - pos
  | 0, pos => by
    intro h
    rw [countLoop]
    omega
  | fuel + 1, pos => by
    intro h
    rw [countLoop]
    by_cases hg : r + 1 < pos + 1
    · rw [if_pos hg]
      omega
    · rw [if_neg hg, if_pos (hall pos),
        countLoop_all_match dd ii r hall fuel (pos + 1) (by omega)]
      omega

/-- Counterexample for C6: the claim's clause that count returns SIZE_MAX only
on error fails at the degenerate window [0, SIZE_MAX - 1]: with a one-byte
pattern matching everywhere, every one of the SIZE_MAX window positions is an
occurrence, so the call returns the sentinel SIZE_MAX together with
MDZ_ERROR_NONE — a SIZE_MAX return without any error. -/
theorem claim_C6_count_counterexample :
    (mdz_ansi_alg_count true (some (fun _ => 97)) 0 (SIZE_MAX - 1)
        (some (fun _ => 97)) 1 true).1 = SIZE_MAX
    ∧ (mdz_ansi_alg_count true (some (fun _ => 97)) 0 (SIZE_MAX - 1)
        (some (fun _ => 97)) 1 true).2 = .MDZ_ERROR_NONE := by
  have h1 : mdz_ansi_alg_count true (some (fun _ => 97)) 0 (SIZE_MAX - 1)
      (some (fun _ => 97)) 1 true
      = (countLoop (fun _ => 97) (fun _ => 97) 1 1 (SIZE_MAX - 1)
          (SIZE_MAX - 1 + 2 - 0) 0, .MDZ_ERROR_NONE) := by
    unfold mdz_ansi_alg_count
    rw [if_neg (by simp)]
    change (if (1 : Nat) = 0 then _ else _) = _
    rw [if_neg (by decide), if_neg (by decide), if_neg (by decide),
      if_neg (by decide)]
    rfl
  rw [h1, countLoop_all_match (fun _ => 97) (fun _ => 97) (SIZE_MAX - 1)
    (fun p => rfl) (SIZE_MAX - 1 + 2 - 0) 0 (by omega)]
  exact ⟨by decide, rfl⟩

/-- Claim C6 (amended): mdz_ansi_alg_count counts pattern occurrences in the
closed window, resuming after a match at p+1 when overlap is allowed and at
p+nCount otherwise (so defined in countLoop); a valid window with no match
yields 0 with MDZ_ERROR_NONE; SIZE_MAX is returned whenever an error is
reported, and — for every call whose window spans fewer than SIZE_MAX
positions, as any window over a physically realizable buffer does — SIZE_MAX
only on error; on "aaaa" with pattern "aa" the count is 3 with overlap and 2
without. -/
theorem claim_C6_count (dd ii : Nat → Byte) (nLeftPos nRightPos nCount : Nat)
    (bOv : Bool) (hcnt : nCount ≠ 0) (hR : nRightPos < SIZE_MAX)
    (hLR : nLeftPos ≤ nRightPos) (hfit : nCount ≤ nRightPos + 1 - nLeftPos) :
    ((∀ p, nLeftPos ≤ p → p + nCount ≤ nRightPos + 1 → matchAt dd ii nCount p = false)
      → mdz_ansi_alg_count true (some dd) nLeftPos nRightPos (some ii) nCount bOv
          = (0, .MDZ_ERROR_NONE))
    ∧ (∀ bA pcD nL nR pcI nC bO,
        (mdz_ansi_alg_count bA pcD nL nR pcI nC bO).2 ≠ .MDZ_ERROR_NONE →
        (mdz_ansi_alg_count bA pcD nL nR pcI nC bO).1 = SIZE_MAX)
    ∧ (∀ bA pcD nL nR pcI nC bO, nR + 1 - nL < SIZE_MAX →
        (mdz_ansi_alg_count bA pcD nL nR pcI nC bO).2 = .MDZ_ERROR_NONE →
        (mdz_ansi_alg_count bA pcD nL nR pcI nC bO).1 ≠ SIZE_MAX)
    ∧ mdz_ansi_alg_count true (some bufAAAA) 0 3 (some patAA) 2 true
        = (3, .MDZ_ERROR_NONE)
    ∧ mdz_ansi_alg_count true (some bufAAAA) 0 3 (some patAA) 2 false
        = (2, .MDZ_ERROR_NONE) := by
  refine ⟨?_, ?_, ?_, by decide, by decide⟩
  · intro hno
    unfold mdz_ansi_alg_count
    rw [if_neg (by simp)]
    change (if nCount = 0 then _ else _) = _
    rw [if_neg hcnt, if_neg (Nat.ne_of_lt hR), if_neg (by omega), if_neg (by omega),
      countLoop_zero dd ii nCount (if bOv then 1 else nCount) nRightPos
        (nRightPos + 2 - nLeftPos) nLeftPos hno]
  · intro bA pcD nL nR pcI nC bO h
    rcases count_sentinel bA pcD nL nR pcI nC bO with h1 | h2
    · exact absurd h1 h
    · exact h2
  · intro bA pcD nL nR pcI nC bO hwin hnone
    rcases count_result_le bA pcD nL nR pcI nC bO with h1 | h2
    · exact absurd hnone h1
    · omega

/-- Witness for C6 at Scenario E and a no-match window. -/
theorem claim_C6_count_witness :
    (2 : Nat) ≠ 0 ∧ (3 : Nat) < SIZE_MAX ∧ (0 : Nat) ≤ 3 ∧ (2 : Nat) ≤ 3 + 1 - 0 ∧
    mdz_ansi_alg_count true (some bufAAAA) 0 3 (some patAA) 2 true
      = (3, .MDZ_ERROR_NONE) ∧
    mdz_ansi_alg_count true (some bufAAAA) 0 3 (some patAA) 2 false
      = (2, .MDZ_ERROR_NONE) :=
  ⟨by decide, by decide, by decide, by decide,
   (claim_C6_count bufAAAA patAA 0 3 2 true (by decide) (by decide) (by decide)
     (by decide)).2.2.2.1,
   (claim_C6_count bufAAAA patAA 0 3 2 false (by decide) (by decide) (by decide)
     (by decide)).2.2.2.2⟩

/-- Claim C7: mdz_ansi_alg_trim removes from each end of the window the
maximal run of pattern-set bytes: a buffer whose window bytes all belong to
the pattern byte-set is emptied (Size becomes 0) with MDZ_ERROR_NONE, and
Scenario B: trimming "  hello  " (Size 9) with pattern " " over the full
window yields Size 5 and content "hello". -/
theorem claim_C7_trim (dd ii : Nat → Byte) (nSize nCount : Nat)
    (hsz : nSize ≠ 0) (hterm : dd nSize = 0) (hcnt : nCount ≠ 0)
    (hall : ∀ i, i < nSize → inSet ii nCount (dd i) = true) :
    ((mdz_ansi_alg_trim true (some dd) (some nSize) 0 (nSize - 1) (some ii) nCount).1
        = .MDZ_ERROR_NONE)
    ∧ ((mdz_ansi_alg_trim true (some dd) (some nSize) 0 (nSize - 1) (some ii) nCount).2.2
        = some 0)
    ∧ (mdz_ansi_alg_trim true (some bufHello) (some 9) 0 8 (some patSpace) 1).1
        = .MDZ_ERROR_NONE
    ∧ (mdz_ansi_alg_trim true (some bufHello) (some 9) 0 8 (some patSpace) 1).2.2
        = some 5
    ∧ outBytes (mdz_ansi_alg_trim true (some bufHello) (some 9) 0 8 (some patSpace) 1) 6
        = [104, 101, 108, 108, 111, 0] := by
  have htr : mdz_ansi_alg_trim true (some dd) (some nSize) 0 (nSize - 1) (some ii) nCount
      = (.MDZ_ERROR_NONE, some (removeBytes dd nSize 0 (nSize - 1 + 1 - 0)),
         some (nSize - (nSize - 1 + 1 - 0))) := by
    unfold mdz_ansi_alg_trim
    rw [if_neg (by simp)]
    change (if nSize = 0 then _ else _) = _
    rw [if_neg hsz, if_neg (by simp [hterm])]
    change (if nCount = 0 then _ else _) = _
    rw [if_neg hcnt, if_neg (by omega), if_neg (by omega),
      scanFirst_eq_none_of _ _ _ (fun q h1 h2 => by simp [hall q (by omega)])]
  refine ⟨by rw [htr], ?_, by decide, by decide, by decide⟩
  rw [htr]
  simp only [Option.some.injEq]
  omega

/-- Witness for C7 on the all-spaces buffer "   " (Size 3). -/
theorem claim_C7_trim_witness :
    (3 : Nat) ≠ 0 ∧ bufSpaces 3 = 0 ∧ (1 : Nat) ≠ 0 ∧
    (∀ i, i < 3 → inSet patSpace 1 (bufSpaces i) = true) ∧
    (mdz_ansi_alg_trim true (some bufSpaces) (some 3) 0 (3 - 1) (some patSpace) 1).2.2
      = some 0 :=
  ⟨by decide, by decide, by decide, by decide,
   (claim_C7_trim bufSpaces patSpace 3 1 (by decide) (by decide) (by decide)
     (by decide)).2.1⟩

/-- Claim C8: boundary fit for mdz_ansi_alg_insert: with the other
preconditions satisfied, Size + nCount = nDataCapacity succeeds with
MDZ_ERROR_NONE (buffer filled to capacity), while Size + nCount =
nDataCapacity + 1 fails with MDZ_ERROR_BIGCOUNT. -/
theorem claim_C8_boundary_fit (dd ii : Nat → Byte) (nSize nCap nLeft nCnt : Nat)
    (hcap0 : nCap ≠ 0) (hcapM : nCap ≠ SIZE_MAX) (hterm : dd nSize = 0)
    (hcnt : nCnt ≠ 0) (hleft : nLeft ≤ nSize) :
    (nSize + nCnt = nCap →
      (mdz_ansi_alg_insert true (some dd) (some nSize) nCap nLeft (some ii) nCnt
        false).1 = .MDZ_ERROR_NONE)
    ∧ (nSize + nCnt = nCap + 1 →
      (mdz_ansi_alg_insert true (some dd) (some nSize) nCap nLeft (some ii) nCnt
        false).1 = .MDZ_ERROR_BIGCOUNT) := by
  refine ⟨?_, ?_⟩
  · intro h
    rw [insert_success dd ii nSize nCap nLeft nCnt hcap0 hcapM hterm hcnt hleft
      (by omega)]
  · intro h
    unfold mdz_ansi_alg_insert
    rw [if_neg (by simp)]
    change ((if nCap = 0 ∨ nCap = SIZE_MAX then _ else _ :
      mdz_error × Option (Nat → Byte) × Option Nat)).1 = _
    rw [if_neg (fun hh => hh.elim hcap0 hcapM), if_neg (by simp [hterm])]
    change ((if nCnt = 0 then _ else _ :
      mdz_error × Option (Nat → Byte) × Option Nat)).1 = _
    rw [if_neg hcnt, if_neg (by omega), if_pos (by omega)]

/-- Witness for C8: "aaa" (Size 3) with "bb": capacity 5 gives an exact fit,
capacity 4 gives MDZ_ERROR_BIGCOUNT. -/
theorem claim_C8_boundary_fit_witness :
    (mdz_ansi_alg_insert true (some bufAAA) (some 3) 5 1 (some patBB) 2 false).1
        = .MDZ_ERROR_NONE
    ∧ (mdz_ansi_alg_insert true (some bufAAA) (some 3) 4 1 (some patBB) 2 false).1
        = .MDZ_ERROR_BIGCOUNT :=
  ⟨(claim_C8_boundary_fit bufAAA patBB 3 5 1 2 (by decide) (by decide) (by decide)
      (by decide) (by decide)).1 (by decide),
   (claim_C8_boundary_fit bufAAA patBB 3 4 1 2 (by decide) (by decide) (by decide)
      (by decide) (by decide)).2 (by decide)⟩

/-- Counterexample for C9: with a null data pointer the null check fires
before the right-bound check, so nRightPos = SIZE_MAX yields MDZ_ERROR_DATA,
not MDZ_ERROR_BIGRIGHT: the sentinel error is not independent of the other
arguments. -/
theorem claim_C9_sentinel_counterexample :
    (mdz_ansi_alg_findSingle true none 0 SIZE_MAX 0).2 = .MDZ_ERROR_DATA
    ∧ mdz_error.MDZ_ERROR_DATA ≠ .MDZ_ERROR_BIGRIGHT := by
  exact ⟨rfl, by decide⟩

/-- Claim C9 (amended): for every operation taking a right position, when the
preconditions checked before the right bound hold (library authorized, data
non-null; items non-null and count nonzero where the operation takes a
pattern; for the mutating remove/trim operations also a non-null size holder
with nonzero size at most SIZE_MAX and the terminator present), passing
nRightPos = SIZE_MAX yields MDZ_ERROR_BIGRIGHT, and the position/count
returning operations return the SIZE_MAX sentinel. -/
theorem claim_C9_sentinel_amended :
    (∀ dd nLeft c, mdz_ansi_alg_findSingle true (some dd) nLeft SIZE_MAX c
        = (SIZE_MAX, .MDZ_ERROR_BIGRIGHT))
    ∧ (∀ dd nLeft c, mdz_ansi_alg_rfindSingle true (some dd) nLeft SIZE_MAX c
        = (SIZE_MAX, .MDZ_ERROR_BIGRIGHT))
    ∧ (∀ dd ii nLeft nCnt, nCnt ≠ 0 →
        mdz_ansi_alg_find true (some dd) nLeft SIZE_MAX (some ii) nCnt
          = (SIZE_MAX, .MDZ_ERROR_BIGRIGHT))
    ∧ (∀ dd ii nLeft nCnt, nCnt ≠ 0 →
        mdz_ansi_alg_rfind true (some dd) nLeft SIZE_MAX (some ii) nCnt
          = (SIZE_MAX, .MDZ_ERROR_BIGRIGHT))
    ∧ (∀ dd ii nLeft nCnt, nCnt ≠ 0 →
        mdz_ansi_alg_firstOf true (some dd) nLeft SIZE_MAX (some ii) nCnt
          = (SIZE_MAX, .MDZ_ERROR_BIGRIGHT))
    ∧ (∀ dd ii nLeft nCnt, nCnt ≠ 0 →
        mdz_ansi_alg_firstNotOf true (some dd) nLeft SIZE_MAX (some ii) nCnt
          = (SIZE_MAX, .MDZ_ERROR_BIGRIGHT))
    ∧ (∀ dd ii nLeft nCnt, nCnt ≠ 0 →
        mdz_ansi_alg_lastOf true (some dd) nLeft SIZE_MAX (some ii) nCnt
          = (SIZE_MAX, .MDZ_ERROR_BIGRIGHT))
    ∧ (∀ dd ii nLeft nCnt, nCnt ≠ 0 →
        mdz_ansi_alg_lastNotOf true (some dd) nLeft SIZE_MAX (some ii) nCnt
          = (SIZE_MAX, .MDZ_ERROR_BIGRIGHT))
    ∧ (∀ dd ii nLeft nCnt bOv, nCnt ≠ 0 →
        mdz_ansi_alg_count true (some dd) nLeft SIZE_MAX (some ii) nCnt bOv
          = (SIZE_MAX, .MDZ_ERROR_BIGRIGHT))
    ∧ (∀ dd ii nSize nLeft nCnt, nSize ≤ SIZE_MAX → nSize ≠ 0 → dd nSize = 0 →
        nCnt ≠ 0 →
        (mdz_ansi_alg_remove true (some dd) (some nSize) nLeft SIZE_MAX (some ii)
          nCnt).1 = .MDZ_ERROR_BIGRIGHT)
    ∧ (∀ dd ii nSize nLeft nCnt, nSize ≤ SIZE_MAX → nSize ≠ 0 → dd nSize = 0 →
        nCnt ≠ 0 →
        (mdz_ansi_alg_trimLeft true (some dd) (some nSize) nLeft SIZE_MAX (some ii)
          nCnt).1 = .MDZ_ERROR_BIGRIGHT)
    ∧ (∀ dd ii nSize nLeft nCnt, nSize ≤ SIZE_MAX → nSize ≠ 0 → dd nSize = 0 →
        nCnt ≠ 0 →
        (mdz_ansi_alg_trimRight true (some dd) (some nSize) nLeft SIZE_MAX (some ii)
          nCnt).1 = .MDZ_ERROR_BIGRIGHT)
    ∧ (∀ dd ii nSize nLeft nCnt, nSize ≤ SIZE_MAX → nSize ≠ 0 → dd nSize = 0 →
        nCnt ≠ 0 →
        (mdz_ansi_alg_trim true (some dd) (some nSize) nLeft SIZE_MAX (some ii)
          nCnt).1 = .MDZ_ERROR_BIGRIGHT) := by
  refine ⟨?_, ?_, ?_, ?_, ?_, ?_, ?_, ?_, ?_, ?_, ?_, ?_, ?_⟩
  · intro dd nLeft c
    unfold mdz_ansi_alg_findSingle
    rw [if_neg (by simp)]
    change (if SIZE_MAX = SIZE_MAX then _ else _) = _
    rw [if_pos rfl]
  · intro dd nLeft c
    unfold mdz_ansi_alg_rfindSingle
    rw [if_neg (by simp)]
    change (if SIZE_MAX = SIZE_MAX then _ else _) = _
    rw [if_pos rfl]
  · intro dd ii nLeft nCnt hcnt
    unfold mdz_ansi_alg_find
    rw [if_neg (by simp)]
    change (if nCnt = 0 then _ else _) = _
    rw [if_neg hcnt, if_pos rfl]
  · intro dd ii nLeft nCnt hcnt
    unfold mdz_ansi_alg_rfind
    rw [if_neg (by simp)]
    change (if nCnt = 0 then _ else _) = _
    rw [if_neg hcnt, if_pos rfl]
  · intro dd ii nLeft nCnt hcnt
    unfold mdz_ansi_alg_firstOf
    rw [if_neg (by simp)]
    change (if nCnt = 0 then _ else _) = _
    rw [if_neg hcnt, if_pos rfl]
  · intro dd ii nLeft nCnt hcnt
    unfold mdz_ansi_alg_firstNotOf
    rw [if_neg (by simp)]
    change (if nCnt = 0 then _ else _) = _
    rw [if_neg hcnt, if_pos rfl]
  · intro dd ii nLeft nCnt hcnt
    unfold mdz_ansi_alg_lastOf
    rw [if_neg (by simp)]
    change (if nCnt = 0 then _ else _) = _
    rw [if_neg hcnt, if_pos rfl]
  · intro dd ii nLeft nCnt hcnt
    unfold mdz_ansi_alg_lastNotOf
    rw [if_neg (by simp)]
    change (if nCnt = 0 then _ else _) = _
    rw [if_neg hcnt, if_pos rfl]
  · intro dd ii nLeft nCnt bOv hcnt
    unfold mdz_ansi_alg_count
    rw [if_neg (by simp)]
    change (if nCnt = 0 then _ else _) = _
    rw [if_neg hcnt, if_pos rfl]
  · intro dd ii nSize nLeft nCnt hS hsz hterm hcnt
    unfold mdz_ansi_alg_remove
    rw [if_neg (by simp)]
    change ((if nSize = 0 then _ else _ :
      mdz_error × Option (Nat → Byte) × Option Nat)).1 = _
    rw [if_neg hsz, if_neg (by simp [hterm])]
    change ((if nCnt = 0 then _ else _ :
      mdz_error × Option (Nat → Byte) × Option Nat)).1 = _
    rw [if_neg hcnt, if_pos hS]
  · intro dd ii nSize nLeft nCnt hS hsz hterm hcnt
    unfold mdz_ansi_alg_trimLeft
    rw [if_neg (by simp)]
    change ((if nSize = 0 then _ else _ :
      mdz_error × Option (Nat → Byte) × Option Nat)).1 = _
    rw [if_neg hsz, if_neg (by simp [hterm])]
    change ((if nCnt = 0 then _ else _ :
      mdz_error × Option (Nat → Byte) × Option Nat)).1 = _
    rw [if_neg hcnt, if_pos hS]
  · intro dd ii nSize nLeft nCnt hS hsz hterm hcnt
    unfold mdz_ansi_alg_trimRight
    rw [if_neg (by simp)]
    change ((if nSize = 0 then _ else _ :
      mdz_error × Option (Nat → Byte) × Option Nat)).1 = _
    rw [if_neg hsz, if_neg (by simp [hterm])]
    change ((if nCnt = 0 then _ else _ :
      mdz_error × Option (Nat → Byte) × Option Nat)).1 = _
    rw [if_neg hcnt, if_pos hS]
  · intro dd ii nSize nLeft nCnt hS hsz hterm hcnt
    unfold mdz_ansi_alg_trim
    rw [if_neg (by simp)]
    change ((if nSize = 0 then _ else _ :
      mdz_error × Option (Nat → Byte) × Option Nat)).1 = _
    rw [if_neg hsz, if_neg (by simp [hterm])]
    change ((if nCnt = 0 then _ else _ :
      mdz_error × Option (Nat → Byte) × Option Nat)).1 = _
    rw [if_neg hcnt, if_pos hS]

/-- Witness for C9 amended: find of "bb" in "xx" with nRightPos = SIZE_MAX. -/
theorem claim_C9_sentinel_amended_witness :
    (2 : Nat) ≠ 0 ∧
    mdz_ansi_alg_find true (some bufXX) 0 SIZE_MAX (some patBB) 2
      = (SIZE_MAX, .MDZ_ERROR_BIGRIGHT) :=
  ⟨by decide, claim_C9_sentinel_amended.2.2.1 bufXX patBB 0 2 (by decide)⟩

/-- Claim C10 (implicit): the read-only search operations take no size
argument and perform no terminator or size validation: with the library
authorized, data (and where applicable items, nonzero count, and the
window-fit bound for find/rfind/count) valid, nRightPos not SIZE_MAX and
nLeftPos <= nRightPos, the reported error is MDZ_ERROR_NONE — a window at or
past the logical Size is accepted; whereas a right-position-past-Size
rejection (MDZ_ERROR_BIGRIGHT when nRightPos >= Size) exists in the mutating
remove and trim operations. -/
theorem claim_C10_readonly_window :
    (∀ dd nLeft nRight c, nRight ≠ SIZE_MAX → nLeft ≤ nRight →
      (mdz_ansi_alg_findSingle true (some dd) nLeft nRight c).2 = .MDZ_ERROR_NONE)
    ∧ (∀ dd nLeft nRight c, nRight ≠ SIZE_MAX → nLeft ≤ nRight →
      (mdz_ansi_alg_rfindSingle true (some dd) nLeft nRight c).2 = .MDZ_ERROR_NONE)
    ∧ (∀ dd ii nLeft nRight nCnt, nCnt ≠ 0 → nRight ≠ SIZE_MAX → nLeft ≤ nRight →
        nCnt ≤ nRight + 1 - nLeft →
      (mdz_ansi_alg_find true (some dd) nLeft nRight (some ii) nCnt).2
        = .MDZ_ERROR_NONE)
    ∧ (∀ dd ii nLeft nRight nCnt, nCnt ≠ 0 → nRight ≠ SIZE_MAX → nLeft ≤ nRight →
        nCnt ≤ nRight + 1 - nLeft →
      (mdz_ansi_alg_rfind true (some dd) nLeft nRight (some ii) nCnt).2
        = .MDZ_ERROR_NONE)
    ∧ (∀ dd ii nLeft nRight nCnt, nCnt ≠ 0 → nRight ≠ SIZE_MAX → nLeft ≤ nRight →
      (mdz_ansi_alg_firstOf true (some dd) nLeft nRight (some ii) nCnt).2
        = .MDZ_ERROR_NONE)
    ∧ (∀ dd ii nLeft nRight nCnt, nCnt ≠ 0 → nRight ≠ SIZE_MAX → nLeft ≤ nRight →
      (mdz_ansi_alg_firstNotOf true (some dd) nLeft nRight (some ii) nCnt).2
        = .MDZ_ERROR_NONE)
    ∧ (∀ dd ii nLeft nRight nCnt, nCnt ≠ 0 → nRight ≠ SIZE_MAX → nLeft ≤ nRight →
      (mdz_ansi_alg_lastOf true (some dd) nLeft nRight (some ii) nCnt).2
        = .MDZ_ERROR_NONE)
    ∧ (∀ dd ii nLeft nRight nCnt, nCnt ≠ 0 → nRight ≠ SIZE_MAX → nLeft ≤ nRight →
      (mdz_ansi_alg_lastNotOf true (some dd) nLeft nRight (some ii) nCnt).2
        = .MDZ_ERROR_NONE)
    ∧ (∀ dd ii nLeft nRight nCnt bOv, nCnt ≠ 0 → nRight ≠ SIZE_MAX → nLeft ≤ nRight →
        nCnt ≤ nRight + 1 - nLeft →
      (mdz_ansi_alg_count true (some dd) nLeft nRight (some ii) nCnt bOv).2
        = .MDZ_ERROR_NONE)
    ∧ (∀ dd ii nSize nLeft nRight nCnt, nSize ≤ nRight → nSize ≠ 0 → dd nSize = 0 →
        nCnt ≠ 0 →
      (mdz_ansi_alg_remove true (some dd) (some nSize) nLeft nRight (some ii) nCnt).1
        = .MDZ_ERROR_BIGRIGHT)
    ∧ (∀ dd ii nSize nLeft nRight nCnt, nSize ≤ nRight → nSize ≠ 0 → dd nSize = 0 →
        nCnt ≠ 0 →
      (mdz_ansi_alg_trimLeft true (some dd) (some nSize) nLeft nRight (some ii)
        nCnt).1 = .MDZ_ERROR_BIGRIGHT)
    ∧ (∀ dd ii nSize nLeft nRight nCnt, nSize ≤ nRight → nSize ≠ 0 → dd nSize = 0 →
        nCnt ≠ 0 →
      (mdz_ansi_alg_trimRight true (some dd) (some nSize) nLeft nRight (some ii)
        nCnt).1 = .MDZ_ERROR_BIGRIGHT)
    ∧ (∀ dd ii nSize nLeft nRight nCnt, nSize ≤ nRight → nSize ≠ 0 → dd nSize = 0 →
        nCnt ≠ 0 →
      (mdz_ansi_alg_trim true (some dd) (some nSize) nLeft nRight (some ii) nCnt).1
        = .MDZ_ERROR_BIGRIGHT) := by
  refine ⟨?_, ?_, ?_, ?_, ?_, ?_, ?_, ?_, ?_, ?_, ?_, ?_, ?_⟩
  · intro dd nLeft nRight c hR hLR
    unfold mdz_ansi_alg_findSingle
    rw [if_neg (by simp)]
    change ((if nRight = SIZE_MAX then _ else _ : Nat × mdz_error)).2 = _
    rw [if_neg hR, if_neg (by omega)]
    split <;> rfl
  · intro dd nLeft nRight c hR hLR
    unfold mdz_ansi_alg_rfindSingle
    rw [if_neg (by simp)]
    change ((if nRight = SIZE_MAX then _ else _ : Nat × mdz_error)).2 = _
    rw [if_neg hR, if_neg (by omega)]
    split <;> rfl
  · intro dd ii nLeft nRight nCnt hcnt hR hLR hfit
    unfold mdz_ansi_alg_find
    rw [if_neg (by simp)]
    change ((if nCnt = 0 then _ else _ : Nat × mdz_error)).2 = _
    rw [if_neg hcnt, if_neg hR, if_neg (by omega), if_neg (by omega)]
    split <;> rfl
  · intro dd ii nLeft nRight nCnt hcnt hR hLR hfit
    unfold mdz_ansi_alg_rfind
    rw [if_neg (by simp)]
    change ((if nCnt = 0 then _ else _ : Nat × mdz_error)).2 = _
    rw [if_neg hcnt, if_neg hR, if_neg (by omega), if_neg (by omega)]
    split <;> rfl
  · intro dd ii nLeft nRight nCnt hcnt hR hLR
    unfold mdz_ansi_alg_firstOf
    rw [if_neg (by simp)]
    change ((if nCnt = 0 then _ else _ : Nat × mdz_error)).2 = _
    rw [if_neg hcnt, if_neg hR, if_neg (by omega)]
    split <;> rfl
  · intro dd ii nLeft nRight nCnt hcnt hR hLR
    unfold mdz_ansi_alg_firstNotOf
    rw [if_neg (by simp)]
    change ((if nCnt = 0 then _ else _ : Nat × mdz_error)).2 = _
    rw [if_neg hcnt, if_neg hR, if_neg (by omega)]
    split <;> rfl
  · intro dd ii nLeft nRight nCnt hcnt hR hLR
    unfold mdz_ansi_alg_lastOf
    rw [if_neg (by simp)]
    change ((if nCnt = 0 then _ else _ : Nat × mdz_error)).2 = _
    rw [if_neg hcnt, if_neg hR, if_neg (by omega)]
    split <;> rfl
  · intro dd ii nLeft nRight nCnt hcnt hR hLR
    unfold mdz_ansi_alg_lastNotOf
    rw [if_neg (by simp)]
    change ((if nCnt = 0 then _ else _ : Nat × mdz_error)).2 = _
    rw [if_neg hcnt, if_neg hR, if_neg (by omega)]
    split <;> rfl
  · intro dd ii nLeft nRight nCnt bOv hcnt hR hLR hfit
    unfold mdz_ansi_alg_count
    rw [if_neg (by simp)]
    change ((if nCnt = 0 then _ else _ : Nat × mdz_error)).2 = _
    rw [if_neg hcnt, if_neg hR, if_neg (by omega), if_neg (by omega)]
  · intro dd ii nSize nLeft nRight nCnt hSR hsz hterm hcnt
    unfold mdz_ansi_alg_remove
    rw [if_neg (by simp)]
    change ((if nSize = 0 then _ else _ :
      mdz_error × Option (Nat → Byte) × Option Nat)).1 = _
    rw [if_neg hsz, if_neg (by simp [hterm])]
    change ((if nCnt = 0 then _ else _ :
      mdz_error × Option (Nat → Byte) × Option Nat)).1 = _
    rw [if_neg hcnt, if_pos hSR]
  · intro dd ii nSize nLeft nRight nCnt hSR hsz hterm hcnt
    unfold mdz_ansi_alg_trimLeft
    rw [if_neg (by simp)]
    change ((if nSize = 0 then _ else _ :
      mdz_error × Option (Nat → Byte) × Option Nat)).1 = _
    rw [if_neg hsz, if_neg (by simp [hterm])]
    change ((if nCnt = 0 then _ else _ :
      mdz_error × Option (Nat → Byte) × Option Nat)).1 = _
    rw [if_neg hcnt, if_pos hSR]
  · intro dd ii nSize nLeft nRight nCnt hSR hsz hterm hcnt
    unfold mdz_ansi_alg_trimRight
    rw [if_neg (by simp)]
    change ((if nSize = 0 then _ else _ :
      mdz_error × Option (Nat → Byte) × Option Nat)).1 = _
    rw [if_neg hsz, if_neg (by simp [hterm])]
    change ((if nCnt = 0 then _ else _ :
      mdz_error × Option (Nat → Byte) × Option Nat)).1 = _
    rw [if_neg hcnt, if_pos hSR]
  · intro dd ii nSize nLeft nRight nCnt hSR hsz hterm hcnt
    unfold mdz_ansi_alg_trim
    rw [if_neg (by simp)]
    change ((if nSize = 0 then _ else _ :
      mdz_error × Option (Nat → Byte) × Option Nat)).1 = _
    rw [if_neg hsz, if_neg (by simp [hterm])]
    change ((if nCnt = 0 then _ else _ :
      mdz_error × Option (Nat → Byte) × Option Nat)).1 = _
    rw [if_neg hcnt, if_pos hSR]

/-- Witness for C10: a findSingle window [0,5] far past the logical size of
"xx" (Size 2) reports MDZ_ERROR_NONE, while remove with nRightPos = 5 >= Size
reports MDZ_ERROR_BIGRIGHT. -/
theorem claim_C10_readonly_window_witness :
    (mdz_ansi_alg_findSingle true (some bufXX) 0 5 97).2 = .MDZ_ERROR_NONE
    ∧ (mdz_ansi_alg_remove true (some bufXX) (some 2) 0 5 (some patBB) 2).1
        = .MDZ_ERROR_BIGRIGHT :=
  ⟨claim_C10_readonly_window.1 bufXX 0 5 97 (by decide) (by decide),
   claim_C10_readonly_window.2.2.2.2.2.2.2.2.2.1 bufXX patBB 2 0 5 2
     (by decide) (by decide) (by decide) (by decide)⟩
